import Mathlib

/-!
# Verification of the taxmonitor.pro ingestion pipeline

Shallow embedding of the Cloudflare Worker in `workers/api/src/index.js`:
signature-less webhook stubs, form intake/order/support handlers, the
email-hash identity resolver, the per-email throttle, the R2-backed receipt
ledger and canonical store, and the ClickUp projection calls.

Conventions of the embedding:
* JS strings are Lean `String`s; `trim`/`toLowerCase`/`toUpperCase` are
  modelled at ASCII fidelity (the inputs of interest are ASCII).
* JS objects produced by body parsing are association lists
  `List (String × JsVal)`; a JS object has unique keys, and lookups take the
  first (unique) match.
* Machine-word arithmetic inside SHA-256 is `Nat` with explicit `% 2 ^ 32`.
* External calls (R2 `put`, ClickUp HTTP requests) are fallible; their
  outcomes are supplied by an `Oracle` that assigns each call site an
  `Outcome` (success with an optional returned id, or a thrown error).
  R2 `get` is modelled as a pure lookup in the store.
* The clock (`new Date()` / `Date.now()`) and `crypto.randomUUID()` are
  passed in as explicit arguments (`nowMs`, `nowIso`, `freshId`); the several
  clock reads inside one request are modelled as the same instant.
* ClickUp task descriptions and comment texts are presentation-only strings
  that no claim inspects; the model records the calls (list id / task id /
  field id) without reconstructing those texts.
-/

namespace TaxMonitor

/-! ## JS string primitives -/

/-- Drops leading whitespace characters. -/
def dropWhileWs : List Char → List Char
  | [] => []
  | c :: rest => if c.isWhitespace then dropWhileWs rest else c :: rest

/-- JS `String.prototype.trim()` (ASCII whitespace). -/
def jsTrim (s : String) : String :=
  String.mk ((dropWhileWs (dropWhileWs s.toList).reverse).reverse)

/-- JS `String.prototype.toLowerCase()` (ASCII fidelity). -/
def jsToLower (s : String) : String := String.mk (s.toList.map Char.toLower)

/-- JS `String.prototype.toUpperCase()` (ASCII fidelity). -/
def jsToUpper (s : String) : String := String.mk (s.toList.map Char.toUpper)

/-- JS `a || b` on strings: empty string is falsy. -/
def jsOr (a b : String) : String := if a = "" then b else a

/-- JS `x || null` on a nullable string: `null` and `""` collapse to `null`. -/
def jsIdOrNull (x : Option String) : Option String :=
  match x with
  | none => none
  | some s => if s = "" then none else some s

/-- JS `s || null` on a plain string. -/
def jsStrOrNull (s : String) : Option String := if s = "" then none else some s

/-- JS truthiness of a nullable string (`undefined`/`null`/`""` are falsy). -/
def jsTruthy (x : Option String) : Bool :=
  match x with
  | none => false
  | some s => s ≠ ""

/-- JS `s.slice(a, b)` for `0 ≤ a ≤ b` (ASCII strings). -/
def strSlice (s : String) (a b : Nat) : String :=
  String.mk ((s.toList.drop a).take (b - a))

/-! ## SHA-256 (`sha256Hex` in the source, via Web Crypto)

A reference implementation over `Nat` bytes/words with explicit `% 2 ^ 32`,
matching `crypto.subtle.digest("SHA-256", new TextEncoder().encode(input))`
followed by the source's byte-to-hex loop. -/

/-- `2 ^ 32`, the word modulus. -/
def M32 : Nat := 4294967296

/-- UTF-8 encoding of one character (`TextEncoder`). -/
def utf8Char (c : Char) : List Nat :=
  let n := c.toNat
  if n < 128 then [n]
  else if n < 2048 then [192 ||| (n >>> 6), 128 ||| (n &&& 63)]
  else if n < 65536 then
    [224 ||| (n >>> 12), 128 ||| ((n >>> 6) &&& 63), 128 ||| (n &&& 63)]
  else
    [240 ||| (n >>> 18), 128 ||| ((n >>> 12) &&& 63),
     128 ||| ((n >>> 6) &&& 63), 128 ||| (n &&& 63)]

/-- UTF-8 encoding of a string (`new TextEncoder().encode`). -/
def utf8Encode (s : String) : List Nat := (s.toList.map utf8Char).flatten

/-- Right-rotation of a 32-bit word. -/
def rotr (n x : Nat) : Nat := ((x >>> n) ||| (x <<< (32 - n))) % M32

/-- SHA-256 `Ch(e, f, g)`. -/
def shaCh (e f g : Nat) : Nat := (e &&& f) ^^^ ((e ^^^ 4294967295) &&& g)

/-- SHA-256 `Maj(a, b, c)`. -/
def shaMaj (a b c : Nat) : Nat := (a &&& b) ^^^ (a &&& c) ^^^ (b &&& c)

/-- SHA-256 `Σ₀`. -/
def bsig0 (x : Nat) : Nat := rotr 2 x ^^^ rotr 13 x ^^^ rotr 22 x

/-- SHA-256 `Σ₁`. -/
def bsig1 (x : Nat) : Nat := rotr 6 x ^^^ rotr 11 x ^^^ rotr 25 x

/-- SHA-256 `σ₀`. -/
def ssig0 (x : Nat) : Nat := rotr 7 x ^^^ rotr 18 x ^^^ (x >>> 3)

/-- SHA-256 `σ₁`. -/
def ssig1 (x : Nat) : Nat := rotr 17 x ^^^ rotr 19 x ^^^ (x >>> 10)

/-- The 64 SHA-256 round constants. -/
def shaK : List Nat :=
  [1116352408, 1899447441, 3049323471, 3921009573, 961987163, 1508970993,
   2453635748, 2870763221, 3624381080, 310598401, 607225278, 1426881987,
   1925078388, 2162078206, 2614888103, 3248222580, 3835390401, 4022224774,
   264347078, 604807628, 770255983, 1249150122, 1555081692, 1996064986,
   2554220882, 2821834349, 2952996808, 3210313671, 3336571891, 3584528711,
   113926993, 338241895, 666307205, 773529912, 1294757372, 1396182291,
   1695183700, 1986661051, 2177026350, 2456956037, 2730485921, 2820302411,
   3259730800, 3345764771, 3516065817, 3600352804, 4094571909, 275423344,
   430227734, 506948616, 659060556, 883997877, 958139571, 1322822218,
   1537002063, 1747873779, 1955562222, 2024104815, 2227730452, 2361852424,
   2428436474, 2756734187, 3204031479, 3329325298]

/-- The eight working variables of the compression function. -/
structure Hash8 where
  a : Nat
  b : Nat
  c : Nat
  d : Nat
  e : Nat
  f : Nat
  g : Nat
  h : Nat
deriving Repr, DecidableEq

/-- SHA-256 initial hash value. -/
def shaH0 : Hash8 :=
  ⟨1779033703, 3144134277, 1013904242, 2773480762,
   1359893119, 2600822924, 528734635, 1541459225⟩

/-- Merkle–Damgård padding: `0x80`, zeros to 56 mod 64, 8-byte bit length. -/
def shaPad (msg : List Nat) : List Nat :=
  let len := msg.length
  let z := (119 - len % 64) % 64
  let bitLen := len * 8
  msg ++ [128] ++ List.replicate z 0 ++
    [bitLen >>> 56 % 256, bitLen >>> 48 % 256, bitLen >>> 40 % 256,
     bitLen >>> 32 % 256, bitLen >>> 24 % 256, bitLen >>> 16 % 256,
     bitLen >>> 8 % 256, bitLen % 256]

/-- Big-endian 4-byte groups to 32-bit words. -/
def toWords : List Nat → List Nat
  | b0 :: b1 :: b2 :: b3 :: rest =>
    (((b0 * 256 + b1) * 256 + b2) * 256 + b3) :: toWords rest
  | _ => []

/-- Groups a word list into 16-word blocks. -/
def toBlocks16 : List Nat → List (List Nat)
  | w0 :: w1 :: w2 :: w3 :: w4 :: w5 :: w6 :: w7 ::
    w8 :: w9 :: w10 :: w11 :: w12 :: w13 :: w14 :: w15 :: rest =>
    [w0, w1, w2, w3, w4, w5, w6, w7, w8, w9, w10, w11, w12, w13, w14, w15] ::
      toBlocks16 rest
  | _ => []

/-- Message schedule: extends the 16 block words to 64. -/
def shaSchedule (block : List Nat) : Array Nat :=
  (List.range 48).foldl
    (fun w i =>
      let t := i + 16
      w.push ((ssig1 w[t - 2]! + w[t - 7]! + ssig0 w[t - 15]! + w[t - 16]!) % M32))
    block.toArray

/-- One round of the compression function. -/
def shaRound (s : Hash8) (kw : Nat × Nat) : Hash8 :=
  let t1 := (s.h + bsig1 s.e + shaCh s.e s.f s.g + kw.1 + kw.2) % M32
  let t2 := (bsig0 s.a + shaMaj s.a s.b s.c) % M32
  ⟨(t1 + t2) % M32, s.a, s.b, s.c, (s.d + t1) % M32, s.e, s.f, s.g⟩

/-- Processes one 512-bit block. -/
def shaBlock (hs : Hash8) (block : List Nat) : Hash8 :=
  let w := shaSchedule block
  let s := (shaK.zip w.toList).foldl shaRound hs
  ⟨(hs.a + s.a) % M32, (hs.b + s.b) % M32, (hs.c + s.c) % M32,
   (hs.d + s.d) % M32, (hs.e + s.e) % M32, (hs.f + s.f) % M32,
   (hs.g + s.g) % M32, (hs.h + s.h) % M32⟩

/-- SHA-256 of a byte list, as the eight final hash words. -/
def sha256Words (msg : List Nat) : Hash8 :=
  (toBlocks16 (toWords (shaPad msg))).foldl shaBlock shaH0

/-- One hex digit. -/
def hexDigitChar (n : Nat) : Char :=
  if n < 10 then Char.ofNat (48 + n) else Char.ofNat (87 + n)

/-- A byte as two lowercase hex digits (`toString(16).padStart(2, "0")`). -/
def hexByte (b : Nat) : String :=
  String.mk [hexDigitChar (b / 16 % 16), hexDigitChar (b % 16)]

/-- Big-endian bytes of a 32-bit word. -/
def wordBytes (w : Nat) : List Nat :=
  [w >>> 24 % 256, w >>> 16 % 256, w >>> 8 % 256, w % 256]

/-- The 32 digest bytes. -/
def digestBytes (s : Hash8) : List Nat :=
  wordBytes s.a ++ wordBytes s.b ++ wordBytes s.c ++ wordBytes s.d ++
  wordBytes s.e ++ wordBytes s.f ++ wordBytes s.g ++ wordBytes s.h

/-- `sha256Hex(input)` from the source: UTF-8 encode, digest, hex encode. -/
def sha256Hex (input : String) : String :=
  String.join ((digestBytes (sha256Words (utf8Encode input))).map hexByte)

/-- `accountIdFromEmail(email)`: trim + lowercase the email, hash it, and
reshape the digest into a UUID-shaped id
`hex[0:8]-hex[8:12]-4hex[13:16]-ahex[17:20]-hex[20:32]`. -/
def accountIdFromEmail (email : String) : String :=
  let e := jsToLower (jsTrim email)
  let hex := sha256Hex e
  strSlice hex 0 8 ++ "-" ++ strSlice hex 8 12 ++ "-4" ++ strSlice hex 13 16 ++
    "-a" ++ strSlice hex 17 20 ++ "-" ++ strSlice hex 20 32

/-! ## UUID shape test (`isUuidLike`) -/

/-- Hex digit, both cases (the source regex is case-insensitive). -/
def isHexDigitChar (c : Char) : Bool :=
  c.isDigit || ('a' ≤ c && c ≤ 'f') || ('A' ≤ c && c ≤ 'F')

/-- Position-wise character class of the anchored UUID regex
`^[0-9a-f]{8}-[0-9a-f]{4}-[1-5][0-9a-f]{3}-[89ab][0-9a-f]{3}-[0-9a-f]{12}$/i`. -/
def uuidCharOk (i : Nat) (c : Char) : Bool :=
  if i == 8 || i == 13 || i == 18 || i == 23 then c == '-'
  else if i == 14 then '1' ≤ c && c ≤ '5'
  else if i == 19 then
    c == '8' || c == '9' || c == 'a' || c == 'b' || c == 'A' || c == 'B'
  else isHexDigitChar c

/-- The UUID regex test on a trimmed string. -/
def uuidTest (s : String) : Bool :=
  s.length == 36 && s.toList.enum.all (fun p => uuidCharOk p.1 p.2)

/-- A parsed JS value as the normalizers see it: a string, or anything else
(`typeof v !== "string"`, which the normalizers map to `""`). -/
inductive JsVal
| str (s : String)
| other
deriving DecidableEq, Repr

/-- `isUuidLike(v)`: `typeof v === "string"` and the regex accepts `v.trim()`;
the `Option` is the field being absent. -/
def isUuidLike : Option JsVal → Bool
  | some (JsVal.str s) => uuidTest (jsTrim s)
  | _ => false

/-- `isUuidLike(inbound) ? inbound.trim() : crypto.randomUUID()` — the fresh
UUID is the explicit `freshId` argument. -/
def eventIdFrom (inbound : Option JsVal) (freshId : String) : String :=
  match inbound with
  | some (JsVal.str s) => if uuidTest (jsTrim s) then jsTrim s else freshId
  | _ => freshId

/-! ## Association lists (JS objects and the R2 key space) -/

/-- First-match lookup (JS object property access; keys are unique). -/
def alookup {α : Type} : List (String × α) → String → Option α
  | [], _ => none
  | (k0, v) :: rest, k => if k0 == k then some v else alookup rest k

/-- Key update: replace in place, or append (JS property assignment /
spread-override, and the R2 `put` of a key). -/
def aset {α : Type} : List (String × α) → String → α → List (String × α)
  | [], k, v => [(k, v)]
  | (k0, v0) :: rest, k, v =>
    if k0 == k then (k, v) :: rest else (k0, v0) :: aset rest k v

/-- Trimmed string value of a field, `""` for absent or non-string — the
`get` closure shared by all three normalizers. -/
def jget (data : List (String × JsVal)) (k : String) : String :=
  match alookup data k with
  | some (JsVal.str s) => jsTrim s
  | _ => ""

/-! ## Day key and throttle (`dayKeyUTC`, `enforceEmailThrottle`) -/

/-- Civil date from days since the Unix epoch (proleptic Gregorian, as JS
`getUTCFullYear`/`getUTCMonth`/`getUTCDate` compute it). -/
def civilFromDays (z0 : Int) : Int × Int × Int :=
  let z := z0 + 719468
  let era := Int.fdiv z 146097
  let doe := z - era * 146097
  let yoe :=
    Int.fdiv (doe - Int.fdiv doe 1460 + Int.fdiv doe 36524 - Int.fdiv doe 146096) 365
  let y := yoe + era * 400
  let doy := doe - (365 * yoe + Int.fdiv yoe 4 - Int.fdiv yoe 100)
  let mp := Int.fdiv (5 * doy + 2) 153
  let d := doy - Int.fdiv (153 * mp + 2) 5 + 1
  let m := mp + (if mp < 10 then 3 else -9)
  (y + (if m ≤ 2 then 1 else 0), m, d)

/-- Two-digit padding (`String(x).padStart(2, "0")`). -/
def pad2 (n : Int) : String := if n < 10 then "0" ++ toString n else toString n

/-- `dayKeyUTC(date)`: the `YYYY-MM-DD` UTC day key of a time in ms. -/
def dayKeyUTC (nowMs : Int) : String :=
  let c := civilFromDays (Int.fdiv nowMs 86400000)
  toString c.1 ++ "-" ++ pad2 c.2.1 ++ "-" ++ pad2 c.2.2

/-- The per-identity throttle state persisted at
`rate/{scope}/email/{emailHash}.json`. `lastAt` is the parsed `Date.parse`
value of the stored ISO timestamp (`none` when the field is absent). -/
structure ThrottleState where
  countToday : Nat
  dayKey : String
  lastAt : Option Int
  scope : String
  updatedAt : String
deriving DecidableEq, Repr

/-- Outcome of the throttle check before persisting: a rejection with its
error and retry hint, or permission together with the next state to persist. -/
inductive ThrottleDecision
| reject (error : String) (retryAfterSeconds : Int)
| allow (next : ThrottleState)
deriving DecidableEq, Repr

/-- `existing?.lastAt ? Date.parse(existing.lastAt) : 0`. -/
def throttleLastAt (existing : Option ThrottleState) : Int :=
  match existing with
  | some st => match st.lastAt with | some t => t | none => 0
  | none => 0

/-- `existing?.dayKey === today`. -/
def throttleSameDay (existing : Option ThrottleState) (today : String) : Bool :=
  match existing with
  | some st => st.dayKey == today
  | none => false

/-- `sameDay ? Number(existing?.countToday || 0) : 0` — the day-adjusted
count: the stored `countToday` if the stored day key is today's UTC day key,
else 0 (reset at the UTC day boundary). -/
def throttleCount (existing : Option ThrottleState) (today : String) : Nat :=
  if throttleSameDay existing today then
    match existing with
    | some st => st.countToday
    | none => 0
  else 0

/-- `lastAt ? Math.floor((Date.now() - lastAt) / 1000) : Infinity`, with
`none` playing `Infinity`. -/
def secondsSinceLast (existing : Option ThrottleState) (nowMs : Int) : Option Int :=
  let lastAt := throttleLastAt existing
  if lastAt == 0 then none else some (Int.fdiv (nowMs - lastAt) 1000)

/-- The pure core of `enforceEmailThrottle`: the daily-cap check, the
cooldown check, and the state increment. -/
def throttleDecision (existing : Option ThrottleState) (today : String)
    (nowMs : Int) (nowIso : String) (cooldownSeconds : Int) (maxPerDay : Nat)
    (scope : String) : ThrottleDecision :=
  if throttleCount existing today ≥ maxPerDay then
    ThrottleDecision.reject "Daily submission limit reached for this email." 86400
  else
    let allowNext :=
      ThrottleDecision.allow
        { countToday := throttleCount existing today + 1, dayKey := today,
          lastAt := some nowMs, scope := scope, updatedAt := nowIso }
    match secondsSinceLast existing nowMs with
    | some ssl =>
      if ssl < cooldownSeconds then
        ThrottleDecision.reject "Please wait before submitting again."
          (cooldownSeconds - ssl)
      else allowNext
    | none => allowNext

/-! ## Normalizers -/

/-- Result shape `{ missing, normalized }` of the three normalizers. -/
structure NormResult (α : Type) where
  missing : List String
  normalized : α
deriving DecidableEq, Repr

/-- Normalized intake payload. -/
structure NormIntake where
  companyName : String
  estimatedBalanceDueRange : String
  firstName : String
  irsMonitoringOnlyAcknowledged : String
  irsNoticeDate : String
  irsNoticeReceived : String
  irsNoticeType : String
  lastName : String
  primaryConcern : String
  primaryEmail : String
  unfiledReturnsIndicator : String
  urgencyLevel : String
deriving DecidableEq, Repr

/-- `normalizeIntakePayload(input)`: trims the labelled fields and collects
every missing required field (first name, last name, primary email). -/
def normalizeIntakePayload (input : List (String × JsVal)) : NormResult NormIntake :=
  let normalized : NormIntake :=
    { companyName := jget input "CRM Company Name"
      estimatedBalanceDueRange := jget input "Estimated Balance Due Range"
      firstName := jget input "CRM First Name"
      irsMonitoringOnlyAcknowledged := jget input "IRS Monitoring Only Acknowledged"
      irsNoticeDate := jget input "IRS Notice Date"
      irsNoticeReceived := jget input "IRS Notice Received"
      irsNoticeType := jget input "IRS Notice Type"
      lastName := jget input "CRM Last Name"
      primaryConcern := jget input "Primary Concern"
      primaryEmail := jget input "CRM Primary Email"
      unfiledReturnsIndicator := jget input "Unfiled Returns Indicator"
      urgencyLevel := jget input "Urgency Level" }
  let missing :=
    (if normalized.firstName = "" then ["CRM First Name"] else []) ++
    (if normalized.lastName = "" then ["CRM Last Name"] else []) ++
    (if normalized.primaryEmail = "" then ["CRM Primary Email"] else [])
  ⟨missing, normalized⟩

/-- Normalized order payload. -/
structure NormOrder where
  orderToken : String
  orderType : String
  primaryEmail : String
  productName : String
  notes : String
deriving DecidableEq, Repr

/-- `normalizeOrderPayload(input)` with its label fallbacks. -/
def normalizeOrderPayload (input : List (String × JsVal)) : NormResult NormOrder :=
  let normalized : NormOrder :=
    { orderToken := jsOr (jget input "CF_Order Token")
        (jsOr (jget input "Order Token") (jget input "orderToken"))
      orderType := jsOr (jget input "Order Type") (jget input "orderType")
      primaryEmail := jsOr (jget input "CRM Primary Email")
        (jsOr (jget input "Email") (jget input "email"))
      productName := jsOr (jget input "Product Name")
        (jsOr (jget input "Plan") (jget input "productName"))
      notes := jsOr (jget input "Notes") (jget input "notes") }
  let missing :=
    (if normalized.primaryEmail = "" then ["CRM Primary Email"] else []) ++
    (if normalized.productName = "" ∧ normalized.orderType = "" then
      ["Product Name"] else [])
  ⟨missing, normalized⟩

/-- Normalized support payload. -/
structure NormSupport where
  issueType : String
  orderToken : String
  primaryEmail : String
  priority : String
  summary : String
deriving DecidableEq, Repr

/-- `normalizeSupportPayload(input)` with its label fallbacks. -/
def normalizeSupportPayload (input : List (String × JsVal)) : NormResult NormSupport :=
  let normalized : NormSupport :=
    { issueType := jsOr (jget input "CF_Support Issue Type")
        (jsOr (jget input "Issue Type") (jget input "issueType"))
      orderToken := jsOr (jget input "CF_Order Token")
        (jsOr (jget input "Support Related Order ID") (jget input "orderToken"))
      primaryEmail := jsOr (jget input "CF_Support Email")
        (jsOr (jget input "CRM Primary Email")
          (jsOr (jget input "Email") (jget input "email")))
      priority := jsOr (jget input "CF_Support Priority")
        (jsOr (jget input "Priority") (jget input "priority"))
      summary := jsOr (jget input "Summary")
        (jsOr (jget input "Message") (jget input "summary")) }
  let missing :=
    (if normalized.primaryEmail = "" then ["CF_Support Email"] else []) ++
    (if normalized.summary = "" then ["Summary"] else [])
  ⟨missing, normalized⟩

/-! ## Canonical documents -/

/-- The `metadata` block of an account document (intake captured fields). -/
structure AccountMeta where
  companyName : String
  estimatedBalanceDueRange : String
  irsMonitoringOnlyAcknowledged : String
  irsNoticeDate : String
  irsNoticeReceived : String
  irsNoticeType : String
  primaryConcern : String
  unfiledReturnsIndicator : String
  urgencyLevel : String
deriving DecidableEq, Repr

/-- The `clickUp` block of an account document; the only key this code ever
writes into it is `accountTaskId`. -/
structure ClickUpInfo where
  accountTaskId : Option String
deriving DecidableEq, Repr

/-- A canonical account document at `accounts/{accountId}.json`. -/
structure Account where
  accountId : String
  activeOrders : List String
  firstName : String
  lastName : String
  lifecycleState : String
  metadata : AccountMeta
  primaryEmail : String
  stripeCustomerId : Option String
  clickUp : ClickUpInfo
deriving DecidableEq, Repr

/-- A canonical order document at `orders/{orderId}.json`. -/
structure Order where
  accountId : String
  createdAt : String
  orderId : String
  orderType : Option String
  productName : Option String
  notes : Option String
  status : String
deriving DecidableEq, Repr

/-- A canonical support document at `support/{supportId}.json`. -/
structure Support where
  accountId : String
  createdAt : String
  issueType : Option String
  orderToken : Option String
  priority : Option String
  status : String
  summary : Option String
  supportId : String
deriving DecidableEq, Repr

/-- The normalized payload stored on a receipt, per form. -/
inductive NormPayload
| intake (n : NormIntake)
| order (n : NormOrder)
| support (n : NormSupport)
deriving DecidableEq, Repr

/-- A ledger receipt at `receipts/form/{eventId}.json`. `clickUpTaskId` is
`none` while the key is absent or `null`. -/
structure Receipt where
  accountId : String
  eventId : String
  source : String
  eventType : String
  timestamp : String
  rawPayload : List (String × JsVal)
  normalizedPayload : NormPayload
  processed : Bool
  processingError : Option String
  clickUpTaskId : Option String
deriving DecidableEq, Repr

/-- The account document the intake handler writes: the event's owned fields
over the existing document, carrying over `activeOrders`, `stripeCustomerId`
(via `existing?.stripeCustomerId || null`) and the spread of the existing
`clickUp` block. -/
def intakeMergedAccount (existing : Option Account) (n : NormIntake)
    (accountId : String) : Account :=
  { accountId := accountId
    activeOrders :=
      match existing with
      | some ex => ex.activeOrders
      | none => []
    firstName := n.firstName
    lastName := n.lastName
    lifecycleState := "intake_submitted"
    metadata :=
      { companyName := n.companyName
        estimatedBalanceDueRange := n.estimatedBalanceDueRange
        irsMonitoringOnlyAcknowledged := n.irsMonitoringOnlyAcknowledged
        irsNoticeDate := n.irsNoticeDate
        irsNoticeReceived := n.irsNoticeReceived
        irsNoticeType := n.irsNoticeType
        primaryConcern := n.primaryConcern
        unfiledReturnsIndicator := n.unfiledReturnsIndicator
        urgencyLevel := n.urgencyLevel }
    primaryEmail := n.primaryEmail
    stripeCustomerId := jsIdOrNull (existing.bind Account.stripeCustomerId)
    clickUp :=
      match existing with
      | some ex => ex.clickUp
      | none => ⟨none⟩ }

/-- `Array.from(new Set(xs))`: first-occurrence deduplication in insertion
order. -/
def jsSetDedup (l : List String) : List String :=
  l.foldl (fun acc x => if x ∈ acc then acc else acc ++ [x]) []

/-- The account document the order handler writes:
`{ ...existingAccount, activeOrders: Array.from(new Set([...existing, orderId])) }`. -/
def orderMergedAccount (ex : Account) (orderId : String) : Account :=
  { ex with activeOrders := jsSetDedup (ex.activeOrders ++ [orderId]) }

/-! ## The store, the effect monad, and the external-call oracle -/

/-- The R2 bucket, split by the disjoint key prefixes the worker uses
(`receipts/…`, `accounts/…`, `orders/…`, `support/…`, `rate/…`). Each map is
keyed by the full R2 object key. -/
structure Store where
  receipts : List (String × Receipt)
  accounts : List (String × Account)
  orders : List (String × Order)
  support : List (String × Support)
  throttles : List (String × ThrottleState)
deriving DecidableEq, Repr

/-- The empty bucket. -/
def Store.empty : Store := ⟨[], [], [], [], []⟩

/-- One observable external effect: a successful R2 `put`, or a ClickUp call
(recorded at invocation, before its outcome is known). -/
inductive Event
| putReceipt (key : String) (r : Receipt)
| putAccount (key : String) (a : Account)
| putOrder (key : String) (o : Order)
| putSupport (key : String) (s : Support)
| putThrottle (key : String) (t : ThrottleState)
| cuCreateTask (listId : String)
| cuComment (taskId : String)
| cuSetField (taskId : String) (fieldId : String)
deriving DecidableEq, Repr

/-- Outcome of one external call: success (with the id the provider returns,
for task creation) or a thrown error. -/
inductive Outcome
| ok (ret : Option String)
| fail (msg : String)
deriving DecidableEq, Repr

/-- Assigns every external call site its outcome for one request. -/
structure Oracle where
  putThrottle : Outcome
  putReceiptPre : Outcome
  putAccount : Outcome
  putAccountPatch : Outcome
  putOrder : Outcome
  putSupport : Outcome
  putReceiptDone : Outcome
  putReceiptCatch : Outcome
  cuCreateAccount : Outcome
  cuCommentAccount : Outcome
  cuCreateOrder : Outcome
  cuCommentOrder : Outcome
  cuSetFieldOrder : Outcome
  cuCreateSupport : Outcome
  cuCommentSupport : Outcome
  cuSetFieldSupport : Outcome
deriving DecidableEq, Repr

/-- An all-success oracle returning `ret` from creations. -/
def Oracle.allOk (ret : Option String) : Oracle :=
  ⟨.ok ret, .ok ret, .ok ret, .ok ret, .ok ret, .ok ret, .ok ret, .ok ret,
   .ok ret, .ok ret, .ok ret, .ok ret, .ok ret, .ok ret, .ok ret, .ok ret⟩

/-- Worker environment bindings (`env`). -/
structure Env where
  r2Bucket : Bool
  clickUpApiKey : Option String
  accountsListId : Option String
  ordersListId : Option String
  supportListId : Option String
deriving DecidableEq, Repr

/-- Request-processing state: the bucket plus the trace of external effects
performed so far. -/
structure S where
  store : Store
  events : List Event
deriving DecidableEq, Repr

/-- The request monad: state threading with JS exceptions (the state at the
point of the throw is kept, as it is for a JS `throw` crossing `await`s). -/
def M (α : Type) : Type := S → Except String α × S

/-- Monadic `pure`. -/
def pureM {α : Type} (a : α) : M α := fun s => (Except.ok a, s)

/-- Monadic bind; an error short-circuits but keeps the state. -/
def bindM {α β : Type} (x : M α) (f : α → M β) : M β := fun s =>
  match x s with
  | (Except.ok a, s1) => f a s1
  | (Except.error e, s1) => (Except.error e, s1)

instance : Monad M where
  pure := pureM
  bind := bindM

/-- JS `try { … } catch (err) { … }`. -/
def tryCatchM {α : Type} (x : M α) (handler : String → M α) : M α := fun s =>
  match x s with
  | (Except.ok a, s1) => (Except.ok a, s1)
  | (Except.error e, s1) => handler e s1

/-- JS `throw new Error(msg)` (errors are carried as their message, matching
`String(err?.message || err)` at the catch sites). -/
def throwJs {α : Type} (msg : String) : M α := fun s => (Except.error msg, s)

/-- Reads the current bucket (R2 `get` is an infallible pure lookup here). -/
def getStore : M Store := fun s => (Except.ok s.store, s)

/-- R2 `put` of a receipt: fails as the oracle dictates, else writes and is
traced. -/
def putReceiptR2 (o : Outcome) (key : String) (r : Receipt) : M Unit := fun s =>
  match o with
  | Outcome.fail msg => (Except.error msg, s)
  | Outcome.ok _ =>
    (Except.ok (),
     { store := { s.store with receipts := aset s.store.receipts key r },
       events := s.events ++ [Event.putReceipt key r] })

/-- R2 `put` of an account document. -/
def putAccountR2 (o : Outcome) (key : String) (a : Account) : M Unit := fun s =>
  match o with
  | Outcome.fail msg => (Except.error msg, s)
  | Outcome.ok _ =>
    (Except.ok (),
     { store := { s.store with accounts := aset s.store.accounts key a },
       events := s.events ++ [Event.putAccount key a] })

/-- R2 `put` of an order document. -/
def putOrderR2 (o : Outcome) (key : String) (v : Order) : M Unit := fun s =>
  match o with
  | Outcome.fail msg => (Except.error msg, s)
  | Outcome.ok _ =>
    (Except.ok (),
     { store := { s.store with orders := aset s.store.orders key v },
       events := s.events ++ [Event.putOrder key v] })

/-- R2 `put` of a support document. -/
def putSupportR2 (o : Outcome) (key : String) (v : Support) : M Unit := fun s =>
  match o with
  | Outcome.fail msg => (Except.error msg, s)
  | Outcome.ok _ =>
    (Except.ok (),
     { store := { s.store with support := aset s.store.support key v },
       events := s.events ++ [Event.putSupport key v] })

/-- R2 `put` of a throttle state. -/
def putThrottleR2 (o : Outcome) (key : String) (t : ThrottleState) : M Unit := fun s =>
  match o with
  | Outcome.fail msg => (Except.error msg, s)
  | Outcome.ok _ =>
    (Except.ok (),
     { store := { s.store with throttles := aset s.store.throttles key t },
       events := s.events ++ [Event.putThrottle key t] })

/-- One ClickUp HTTP request: the invocation is traced, then the oracle's
outcome either throws or returns the provider's id payload. -/
def cuRequest (o : Outcome) (ev : Event) : M (Option String) := fun s =>
  let s1 : S := { s with events := s.events ++ [ev] }
  match o with
  | Outcome.fail msg => (Except.error msg, s1)
  | Outcome.ok ret => (Except.ok ret, s1)

/-! ## Responses -/

/-- The JSON body of a handler response, one constructor per return site. -/
inductive RespBody
| methodNotAllowed
| r2Missing
| badBody (error : String) (details : String)
| missingFields (missing : List String)
| idempotent (eventId : String)
| throttled (error : String)
| intakeOk (accountId : String) (clickUpTaskId : Option String) (eventId : String)
    (receivedAs : String)
| intakeFailed (eventId : String) (details : String)
| orderOk (accountId : String) (eventId : String) (orderId : String)
    (orderTaskId : Option String) (receivedAs : String)
| orderFailed (eventId : String) (details : String)
| supportOk (accountId : String) (eventId : String) (supportId : String)
    (supportTaskId : Option String) (receivedAs : String)
| supportFailed (eventId : String) (details : String)
| webhookOk
| invalidJson
deriving DecidableEq, Repr

/-- An HTTP response: status, body, and the `Retry-After` header when set. -/
structure Resp where
  status : Nat
  body : RespBody
  retryAfter : Option String
deriving DecidableEq, Repr

/-- `String(throttle.retryAfterSeconds || 60)` for the `Retry-After` header. -/
def retryAfterHeader (r : Int) : String := toString (if r == 0 then (60 : Int) else r)

/-! ## Throttle wrapper and ClickUp helpers -/

/-- Result of `enforceEmailThrottle`: `{ ok: true }` or
`{ ok: false, error, retryAfterSeconds }`. -/
inductive ThrottleRes
| allow
| reject (error : String) (retryAfterSeconds : Int)
deriving DecidableEq, Repr

/-- `enforceEmailThrottle(env, email, opts)`: clean the email (empty emails
pass), key the state by the email hash under the scope, decide via
`throttleDecision`, and persist the incremented state on allow. -/
def enforceEmailThrottle (orc : Oracle) (email : String) (nowMs : Int)
    (nowIso : String) (cooldownSeconds : Int) (maxPerDay : Nat)
    (scope : String) : M ThrottleRes :=
  let cleanEmail := jsToLower (jsTrim email)
  if cleanEmail = "" then pure ThrottleRes.allow
  else do
    let today := dayKeyUTC nowMs
    let emailHash := sha256Hex cleanEmail
    let throttleKey := "rate/" ++ scope ++ "/email/" ++ emailHash ++ ".json"
    let st ← getStore
    let existing := alookup st.throttles throttleKey
    match throttleDecision existing today nowMs nowIso cooldownSeconds maxPerDay scope with
    | ThrottleDecision.reject err retry => pure (ThrottleRes.reject err retry)
    | ThrottleDecision.allow next => do
      putThrottleR2 orc.putThrottle throttleKey next
      pure ThrottleRes.allow

/-- `addClickUpComment(env, taskId, text)`: no-op on a falsy task id, else a
ClickUp request. The comment text is presentation-only and not modelled. -/
def addClickUpComment (o : Outcome) (taskId : Option String) : M Unit :=
  match taskId with
  | none => pure ()
  | some t =>
    if t = "" then pure ()
    else do
      let _ ← cuRequest o (Event.cuComment t)
      pure ()

/-- `setClickUpTaskCustomField(env, taskId, fieldId, value)`: no-op on a
falsy task or field id, else a ClickUp request. -/
def setClickUpTaskCustomField (o : Outcome) (taskId : Option String)
    (fieldId : String) : M Unit :=
  match taskId with
  | none => pure ()
  | some t =>
    if t = "" then pure ()
    else if fieldId = "" then pure ()
    else do
      let _ ← cuRequest o (Event.cuSetField t fieldId)
      pure ()

/-- `createClickUpAccountTask(env, account, receipt)`: throws without the
Accounts list id, else creates the task and returns `created?.id || null`.
The name/description/custom-field payload is presentation-only. -/
def createClickUpAccountTask (env : Env) (o : Outcome) : M (Option String) :=
  if !(jsTruthy env.accountsListId) then throwJs "Missing CLICKUP_ACCOUNTS_LIST_ID"
  else do
    let ret ← cuRequest o (Event.cuCreateTask (env.accountsListId.getD ""))
    pure (jsIdOrNull ret)

/-- `createClickUpOrderTask(env, account, order, receipt)`. -/
def createClickUpOrderTask (env : Env) (o : Outcome) : M (Option String) :=
  if !(jsTruthy env.ordersListId) then throwJs "Missing CLICKUP_ORDERS_LIST_ID"
  else do
    let ret ← cuRequest o (Event.cuCreateTask (env.ordersListId.getD ""))
    pure (jsIdOrNull ret)

/-- `createClickUpSupportTask(env, account, support, receipt)`. -/
def createClickUpSupportTask (env : Env) (o : Outcome) : M (Option String) :=
  if !(jsTruthy env.supportListId) then throwJs "Missing CLICKUP_SUPPORT_LIST_ID"
  else do
    let ret ← cuRequest o (Event.cuCreateTask (env.supportListId.getD ""))
    pure (jsIdOrNull ret)

/-- `ensureClickUpAccountTask(env, account, accountKey, receipt)`: reuse the
task id already on the account; else (when both ClickUp bindings are present)
create the task, comment the cross-reference, patch the account's
`clickUp.accountTaskId`, write the patched account back, and return the id. -/
def ensureClickUpAccountTask (env : Env) (orc : Oracle) (account : Account)
    (accountKey : String) : M (Option String) :=
  match jsIdOrNull account.clickUp.accountTaskId with
  | some existingId => pure (some existingId)
  | none =>
    if !(jsTruthy env.clickUpApiKey) || !(jsTruthy env.accountsListId) then pure none
    else do
      let createdId ← createClickUpAccountTask env orc.cuCreateAccount
      addClickUpComment orc.cuCommentAccount createdId
      let patched :=
        { account with clickUp := { account.clickUp with accountTaskId := createdId } }
      putAccountR2 orc.putAccountPatch accountKey patched
      pure createdId

/-! ## Form handlers -/

/-- A form request as the handlers see it: the HTTP method and the result of
`parseInboundBody` — a parse rejection `(error, details)` or the field object
together with the `receivedAs` tag (`"json"`/`"form"`). -/
structure FormReq where
  method : String
  parsed : Except (String × String) (List (String × JsVal) × String)

/-- `handleFormsIntake(request, env, ctx)`. -/
def handleFormsIntake (env : Env) (orc : Oracle) (req : FormReq)
    (freshId : String) (nowIso : String) (nowMs : Int) : M Resp :=
  if jsToUpper req.method ≠ "POST" then pure ⟨405, RespBody.methodNotAllowed, none⟩
  else if !env.r2Bucket then pure ⟨500, RespBody.r2Missing, none⟩
  else
    match req.parsed with
    | Except.error ed => pure ⟨400, RespBody.badBody ed.1 ed.2, none⟩
    | Except.ok (data, receivedAs) =>
      let nr := normalizeIntakePayload data
      if nr.missing ≠ [] then pure ⟨400, RespBody.missingFields nr.missing, none⟩
      else
        let normalized := nr.normalized
        let eventId := eventIdFrom (alookup data "eventId") freshId
        let receiptKey := "receipts/form/" ++ eventId ++ ".json"
        do
        let st ← getStore
        let existingReceipt := alookup st.receipts receiptKey
        if (match existingReceipt with
            | some r => r.processed
            | none => false) then
          pure ⟨200, RespBody.idempotent eventId, none⟩
        else do
          let thr ← enforceEmailThrottle orc normalized.primaryEmail nowMs nowIso
            600 3 "form:intake"
          match thr with
          | ThrottleRes.reject err retry =>
            pure ⟨429, RespBody.throttled err, some (retryAfterHeader retry)⟩
          | ThrottleRes.allow => do
            let accountId := accountIdFromEmail normalized.primaryEmail
            let accountKey := "accounts/" ++ accountId ++ ".json"
            let receipt : Receipt :=
              { accountId := accountId, eventId := eventId, source := "form",
                eventType := "intake", timestamp := nowIso,
                rawPayload := aset data "eventId" (JsVal.str eventId),
                normalizedPayload := NormPayload.intake normalized,
                processed := false, processingError := none, clickUpTaskId := none }
            putReceiptR2 orc.putReceiptPre receiptKey receipt
            tryCatchM
              (do
                let st2 ← getStore
                let existingAccount := alookup st2.accounts accountKey
                let account := intakeMergedAccount existingAccount normalized accountId
                putAccountR2 orc.putAccount accountKey account
                let clickUpTaskId ←
                  if jsTruthy env.clickUpApiKey && jsTruthy env.accountsListId then
                    ensureClickUpAccountTask env orc account accountKey
                  else pure none
                let receipt2 :=
                  { receipt with processed := true, processingError := none,
                                 clickUpTaskId := clickUpTaskId }
                putReceiptR2 orc.putReceiptDone receiptKey receipt2
                pure (⟨200, RespBody.intakeOk accountId clickUpTaskId eventId receivedAs,
                       none⟩ : Resp))
              (fun err => do
                let receiptF :=
                  { receipt with processed := false, processingError := some err }
                putReceiptR2 orc.putReceiptCatch receiptKey receiptF
                pure ⟨500, RespBody.intakeFailed eventId err, none⟩)

/-- The tail of the order handler's `try` block after the canonical order
document has been written: merge the account, run the ClickUp projection
(source lines 747–771), mark the receipt processed and answer 200. -/
def orderAfterOrderWrite (env : Env) (orc : Oracle) (existingAccount : Account)
    (accountId accountKey orderId eventId receivedAs : String)
    (receipt : Receipt) (receiptKey : String) : M Resp := do
  let account := orderMergedAccount existingAccount orderId
  putAccountR2 orc.putAccount accountKey account
  let orderTaskId ←
    if jsTruthy env.clickUpApiKey then do
      let accountTaskId ←
        ensureClickUpAccountTask env orc account accountKey
      if jsTruthy env.ordersListId then do
        let orderTaskId ← createClickUpOrderTask env orc.cuCreateOrder
        addClickUpComment orc.cuCommentOrder orderTaskId
        setClickUpTaskCustomField orc.cuSetFieldOrder accountTaskId
          "4b22ab15-26f3-4f6f-98b5-7b4f5446e62d"
        pure orderTaskId
      else pure none
    else pure none
  let receipt2 :=
    { receipt with processed := true, processingError := none,
                   clickUpTaskId := orderTaskId }
  putReceiptR2 orc.putReceiptDone receiptKey receipt2
  pure (⟨200,
    RespBody.orderOk accountId eventId orderId orderTaskId receivedAs,
    none⟩ : Resp)

/-- `handleFormsOrder(request, env, ctx)`. -/
def handleFormsOrder (env : Env) (orc : Oracle) (req : FormReq)
    (freshId : String) (nowIso : String) (nowMs : Int) : M Resp :=
  if jsToUpper req.method ≠ "POST" then pure ⟨405, RespBody.methodNotAllowed, none⟩
  else if !env.r2Bucket then pure ⟨500, RespBody.r2Missing, none⟩
  else
    match req.parsed with
    | Except.error ed => pure ⟨400, RespBody.badBody ed.1 ed.2, none⟩
    | Except.ok (data, receivedAs) =>
      let nr := normalizeOrderPayload data
      if nr.missing ≠ [] then pure ⟨400, RespBody.missingFields nr.missing, none⟩
      else
        let normalized := nr.normalized
        let eventId := eventIdFrom (alookup data "eventId") freshId
        let receiptKey := "receipts/form/" ++ eventId ++ ".json"
        do
        let st ← getStore
        let existingReceipt := alookup st.receipts receiptKey
        if (match existingReceipt with
            | some r => r.processed
            | none => false) then
          pure ⟨200, RespBody.idempotent eventId, none⟩
        else do
          let thr ← enforceEmailThrottle orc normalized.primaryEmail nowMs nowIso
            600 10 "form:order"
          match thr with
          | ThrottleRes.reject err retry =>
            pure ⟨429, RespBody.throttled err, some (retryAfterHeader retry)⟩
          | ThrottleRes.allow => do
            let accountId := accountIdFromEmail normalized.primaryEmail
            let accountKey := "accounts/" ++ accountId ++ ".json"
            let orderId := jsOr normalized.orderToken eventId
            let orderKey := "orders/" ++ orderId ++ ".json"
            let receipt : Receipt :=
              { accountId := accountId, eventId := eventId, source := "form",
                eventType := "order", timestamp := nowIso,
                rawPayload := aset data "eventId" (JsVal.str eventId),
                normalizedPayload := NormPayload.order normalized,
                processed := false, processingError := none, clickUpTaskId := none }
            putReceiptR2 orc.putReceiptPre receiptKey receipt
            tryCatchM
              (do
                let st2 ← getStore
                match alookup st2.accounts accountKey with
                | none =>
                  throwJs
                    "Account not found for email. Submit intake first or create account before order."
                | some existingAccount => do
                  let order : Order :=
                    { accountId := accountId, createdAt := nowIso, orderId := orderId,
                      orderType := jsStrOrNull normalized.orderType,
                      productName := jsStrOrNull normalized.productName,
                      notes := jsStrOrNull normalized.notes,
                      status := "order_submitted" }
                  putOrderR2 orc.putOrder orderKey order
                  orderAfterOrderWrite env orc existingAccount accountId accountKey
                    orderId eventId receivedAs receipt receiptKey)
              (fun err => do
                let receiptF :=
                  { receipt with processed := false, processingError := some err }
                putReceiptR2 orc.putReceiptCatch receiptKey receiptF
                pure ⟨500, RespBody.orderFailed eventId err, none⟩)

/-- The tail of the support handler's `try` block after the canonical support
document has been written: run the ClickUp projection (source lines 895–919),
mark the receipt processed and answer 200. -/
def supportAfterSupportWrite (env : Env) (orc : Oracle) (existingAccount : Account)
    (accountId accountKey supportId eventId receivedAs : String)
    (receipt : Receipt) (receiptKey : String) : M Resp := do
  let account := existingAccount
  let supportTaskId ←
    if jsTruthy env.clickUpApiKey then do
      let accountTaskId ←
        ensureClickUpAccountTask env orc account accountKey
      if jsTruthy env.supportListId then do
        let supportTaskId ← createClickUpSupportTask env orc.cuCreateSupport
        addClickUpComment orc.cuCommentSupport supportTaskId
        setClickUpTaskCustomField orc.cuSetFieldSupport accountTaskId
          "9e14a458-96fd-4109-a276-034d8270e15b"
        pure supportTaskId
      else pure none
    else pure none
  let receipt2 :=
    { receipt with processed := true, processingError := none,
                   clickUpTaskId := supportTaskId }
  putReceiptR2 orc.putReceiptDone receiptKey receipt2
  pure (⟨200,
    RespBody.supportOk accountId eventId supportId supportTaskId receivedAs,
    none⟩ : Resp)

/-- `handleFormsSupport(request, env, ctx)`. -/
def handleFormsSupport (env : Env) (orc : Oracle) (req : FormReq)
    (freshId : String) (nowIso : String) (nowMs : Int) : M Resp :=
  if jsToUpper req.method ≠ "POST" then pure ⟨405, RespBody.methodNotAllowed, none⟩
  else if !env.r2Bucket then pure ⟨500, RespBody.r2Missing, none⟩
  else
    match req.parsed with
    | Except.error ed => pure ⟨400, RespBody.badBody ed.1 ed.2, none⟩
    | Except.ok (data, receivedAs) =>
      let nr := normalizeSupportPayload data
      if nr.missing ≠ [] then pure ⟨400, RespBody.missingFields nr.missing, none⟩
      else
        let normalized := nr.normalized
        let eventId := eventIdFrom (alookup data "eventId") freshId
        let receiptKey := "receipts/form/" ++ eventId ++ ".json"
        do
        let st ← getStore
        let existingReceipt := alookup st.receipts receiptKey
        if (match existingReceipt with
            | some r => r.processed
            | none => false) then
          pure ⟨200, RespBody.idempotent eventId, none⟩
        else do
          let thr ← enforceEmailThrottle orc normalized.primaryEmail nowMs nowIso
            120 25 "form:support"
          match thr with
          | ThrottleRes.reject err retry =>
            pure ⟨429, RespBody.throttled err, some (retryAfterHeader retry)⟩
          | ThrottleRes.allow => do
            let accountId := accountIdFromEmail normalized.primaryEmail
            let accountKey := "accounts/" ++ accountId ++ ".json"
            let supportId := eventId
            let supportKey := "support/" ++ supportId ++ ".json"
            let receipt : Receipt :=
              { accountId := accountId, eventId := eventId, source := "form",
                eventType := "support", timestamp := nowIso,
                rawPayload := aset data "eventId" (JsVal.str eventId),
                normalizedPayload := NormPayload.support normalized,
                processed := false, processingError := none, clickUpTaskId := none }
            putReceiptR2 orc.putReceiptPre receiptKey receipt
            tryCatchM
              (do
                let st2 ← getStore
                match alookup st2.accounts accountKey with
                | none =>
                  throwJs
                    "Account not found for email. Submit intake first or create account before support."
                | some existingAccount => do
                  let supportDoc : Support :=
                    { accountId := accountId, createdAt := nowIso,
                      issueType := jsStrOrNull normalized.issueType,
                      orderToken := jsStrOrNull normalized.orderToken,
                      priority := jsStrOrNull normalized.priority,
                      status := "support_submitted",
                      summary := jsStrOrNull normalized.summary,
                      supportId := supportId }
                  putSupportR2 orc.putSupport supportKey supportDoc
                  supportAfterSupportWrite env orc existingAccount accountId
                    accountKey supportId eventId receivedAs receipt receiptKey)
              (fun err => do
                let receiptF :=
                  { receipt with processed := false, processingError := some err }
                putReceiptR2 orc.putReceiptCatch receiptKey receiptF
                pure ⟨500, RespBody.supportFailed eventId err, none⟩)

/-! ## Webhook stubs (`handleCalWebhook`, `handleStripeWebhook`)

Both marked `(stub)` in the source: they read the raw body, try to parse it
as JSON, log, and return 200 — no signature header is ever read, no
verification of any kind happens, and nothing is written. -/

/-- A webhook request: the method, the raw body bytes, and the provider's
signature header — which the handlers never read. -/
structure WebhookReq where
  method : String
  rawBody : String
  sigHeader : Option String

/-- JSON whitespace. -/
def jsonWs (c : Char) : Bool := c == ' ' || c == '\t' || c == '\n' || c == '\r'

/-- Skips JSON whitespace. -/
def skipWs : List Char → List Char
  | c :: rest => if jsonWs c then skipWs rest else c :: rest
  | [] => []

/-- Scans a JSON string literal body after the opening quote. -/
def jsonStringRest (fuel : Nat) : List Char → Option (List Char)
  | [] => none
  | c :: rest =>
    match fuel with
    | 0 => none
    | fuel + 1 =>
      if c == '"' then some rest
      else if c == '\\' then
        match rest with
        | [] => none
        | e :: rest2 =>
          if e == 'u' then
            match rest2 with
            | h1 :: h2 :: h3 :: h4 :: rest3 =>
              if isHexDigitChar h1 && isHexDigitChar h2 && isHexDigitChar h3 &&
                 isHexDigitChar h4 then jsonStringRest fuel rest3
              else none
            | _ => none
          else if e == '"' || e == '\\' || e == '/' || e == 'b' || e == 'f' ||
                  e == 'n' || e == 'r' || e == 't' then jsonStringRest fuel rest2
          else none
      else if c.toNat < 32 then none
      else jsonStringRest fuel rest

/-- Scans the digits of a JSON number after its first character. -/
def jsonDigits : List Char → List Char
  | c :: rest => if c.isDigit then jsonDigits rest else c :: rest
  | [] => []

/-- Scans a JSON number. -/
def jsonNumber (l : List Char) : Option (List Char) :=
  let afterSign :=
    match l with
    | '-' :: rest => rest
    | _ => l
  match afterSign with
  | c :: rest =>
    if !c.isDigit then none
    else
      let afterInt := if c == '0' then rest else jsonDigits rest
      let afterFrac :=
        match afterInt with
        | '.' :: f :: frest =>
          if f.isDigit then some (jsonDigits frest) else none
        | _ => some afterInt
      match afterFrac with
      | none => none
      | some l2 =>
        match l2 with
        | e :: erest =>
          if e == 'e' || e == 'E' then
            let erest2 :=
              match erest with
              | s :: srest => if s == '+' || s == '-' then srest else erest
              | [] => erest
            match erest2 with
            | d :: drest => if d.isDigit then some (jsonDigits drest) else none
            | [] => none
          else some l2
        | [] => some l2
  | [] => none

mutual

/-- Scans one JSON value. -/
def jsonValue (fuel : Nat) (l : List Char) : Option (List Char) :=
  match fuel with
  | 0 => none
  | fuel + 1 =>
    match skipWs l with
    | [] => none
    | c :: rest =>
      if c == '{' then
        match skipWs rest with
        | '}' :: rest2 => some rest2
        | '"' :: rest2 =>
          match jsonStringRest (rest2.length + 1) rest2 with
          | none => none
          | some rest3 =>
            match skipWs rest3 with
            | ':' :: rest4 =>
              match jsonValue fuel rest4 with
              | none => none
              | some rest5 => jsonMembers fuel rest5
            | _ => none
        | _ => none
      else if c == '[' then
        match skipWs rest with
        | ']' :: rest2 => some rest2
        | _ =>
          match jsonValue fuel rest with
          | none => none
          | some rest2 => jsonItems fuel rest2
      else if c == '"' then jsonStringRest (rest.length + 1) rest
      else if c == 't' then
        match rest with
        | 'r' :: 'u' :: 'e' :: rest2 => some rest2
        | _ => none
      else if c == 'f' then
        match rest with
        | 'a' :: 'l' :: 's' :: 'e' :: rest2 => some rest2
        | _ => none
      else if c == 'n' then
        match rest with
        | 'u' :: 'l' :: 'l' :: rest2 => some rest2
        | _ => none
      else jsonNumber (c :: rest)

/-- Scans the rest of an object's members after one `key: value` pair. -/
def jsonMembers (fuel : Nat) (l : List Char) : Option (List Char) :=
  match fuel with
  | 0 => none
  | fuel + 1 =>
    match skipWs l with
    | '}' :: rest => some rest
    | ',' :: rest =>
      match skipWs rest with
      | '"' :: rest2 =>
        match jsonStringRest (rest2.length + 1) rest2 with
        | none => none
        | some rest3 =>
          match skipWs rest3 with
          | ':' :: rest4 =>
            match jsonValue fuel rest4 with
            | none => none
            | some rest5 => jsonMembers fuel rest5
          | _ => none
      | _ => none
    | _ => none

/-- Scans the rest of an array's items after one value. -/
def jsonItems (fuel : Nat) (l : List Char) : Option (List Char) :=
  match fuel with
  | 0 => none
  | fuel + 1 =>
    match skipWs l with
    | ']' :: rest => some rest
    | ',' :: rest =>
      match jsonValue fuel rest with
      | none => none
      | some rest2 => jsonItems fuel rest2
    | _ => none

end

/-- Whether `JSON.parse(raw)` succeeds (`tryParseJson(raw).ok`). -/
def jsonValid (raw : String) : Bool :=
  let l := raw.toList
  match jsonValue (l.length + 1) l with
  | none => false
  | some rest => (skipWs rest).isEmpty

/-- `handleCalWebhook(request, env, ctx)` — the `(stub)` handler: method
check, raw body read, JSON parse, log, 200. The signature header is never
consulted and the store is never touched. -/
def handleCalWebhook (req : WebhookReq) : M Resp :=
  if jsToUpper req.method ≠ "POST" then pure ⟨405, RespBody.methodNotAllowed, none⟩
  else if !(jsonValid req.rawBody) then pure ⟨400, RespBody.invalidJson, none⟩
  else pure ⟨200, RespBody.webhookOk, none⟩

/-- `handleStripeWebhook(request, env, ctx)` — the `(stub)` handler, same
shape as the Cal one. -/
def handleStripeWebhook (req : WebhookReq) : M Resp :=
  if jsToUpper req.method ≠ "POST" then pure ⟨405, RespBody.methodNotAllowed, none⟩
  else if !(jsonValid req.rawBody) then pure ⟨400, RespBody.invalidJson, none⟩
  else pure ⟨200, RespBody.webhookOk, none⟩

/-! ## Trace classification (for the ordering property) -/

/-- Projection events: the ClickUp calls. -/
def isProjEv : Event → Bool
  | Event.cuCreateTask _ => true
  | Event.cuComment _ => true
  | Event.cuSetField _ _ => true
  | _ => false

/-- Canonical-store writes: account, order and support document puts. -/
def isCanonEv : Event → Bool
  | Event.putAccount _ _ => true
  | Event.putOrder _ _ => true
  | Event.putSupport _ _ => true
  | _ => false

/-- Every projection event in the trace is preceded by a successful
canonical-store write. -/
def projAfterCanon (l : List Event) : Prop :=
  ∀ i : Nat, ∀ hi : i < l.length, isProjEv l[i] = true →
    ∃ j : Nat, ∃ hj : j < l.length, j < i ∧ isCanonEv l[j] = true

/-- Executable check for `projAfterCanon`: scanning left to right, a
canonical write must occur before the first projection event (if any). -/
def projAfterCanonB : List Event → Bool
  | [] => true
  | e :: rest =>
    if isCanonEv e then true
    else if isProjEv e then false
    else projAfterCanonB rest

/-- The receipt the intake handler pre-writes before any side effect
(source lines 578–590). -/
def intakeReceiptPre (data : List (String × JsVal)) (eid nowIso : String) : Receipt :=
  { accountId :=
      accountIdFromEmail (normalizeIntakePayload data).normalized.primaryEmail,
    eventId := eid, source := "form", eventType := "intake", timestamp := nowIso,
    rawPayload := aset data "eventId" (JsVal.str eid),
    normalizedPayload := NormPayload.intake (normalizeIntakePayload data).normalized,
    processed := false, processingError := none, clickUpTaskId := none }

/-- The receipt the order handler pre-writes (source lines 706–718). -/
def orderReceiptPre (data : List (String × JsVal)) (eid nowIso : String) : Receipt :=
  { accountId :=
      accountIdFromEmail (normalizeOrderPayload data).normalized.primaryEmail,
    eventId := eid, source := "form", eventType := "order", timestamp := nowIso,
    rawPayload := aset data "eventId" (JsVal.str eid),
    normalizedPayload := NormPayload.order (normalizeOrderPayload data).normalized,
    processed := false, processingError := none, clickUpTaskId := none }

/-- The receipt the support handler pre-writes (source lines 857–869). -/
def supportReceiptPre (data : List (String × JsVal)) (eid nowIso : String) : Receipt :=
  { accountId :=
      accountIdFromEmail (normalizeSupportPayload data).normalized.primaryEmail,
    eventId := eid, source := "form", eventType := "support", timestamp := nowIso,
    rawPayload := aset data "eventId" (JsVal.str eid),
    normalizedPayload :=
      NormPayload.support (normalizeSupportPayload data).normalized,
    processed := false, processingError := none, clickUpTaskId := none }

/-! ## Concrete fixtures used by witnesses and counterexamples -/

/-- A well-formed (version 4, variant a) event id. -/
def wUuid : String := "123e4567-e89b-42d3-a456-426614174000"

/-- A form payload that passes both the intake and the order normalizer and
carries `wUuid` as inbound event id. -/
def wData : List (String × JsVal) :=
  [("CRM First Name", JsVal.str "Ada"), ("CRM Last Name", JsVal.str "L"),
   ("CRM Primary Email", JsVal.str "a@b.com"),
   ("Product Name", JsVal.str "Plan A"),
   ("eventId", JsVal.str wUuid)]

/-- An already-processed receipt for `wUuid`. -/
def wProcessedReceipt : Receipt :=
  { accountId := "acc", eventId := wUuid, source := "form", eventType := "intake",
    timestamp := "t0", rawPayload := [],
    normalizedPayload := NormPayload.intake
      ⟨"", "", "Ada", "", "", "", "", "L", "", "a@b.com", "", ""⟩,
    processed := true, processingError := none, clickUpTaskId := none }

/-- A state whose ledger already holds `wProcessedReceipt` for `wUuid`. -/
def wStateProcessed : S :=
  ⟨⟨[("receipts/form/" ++ wUuid ++ ".json", wProcessedReceipt)], [], [], [], []⟩, []⟩

/-- An environment with the R2 binding and all ClickUp bindings present. -/
def wEnv : Env := ⟨true, some "key", some "L-acc", some "L-ord", some "L-sup"⟩

/-- The POST request carrying `wData` as a parsed form body. -/
def wReq : FormReq := ⟨"POST", Except.ok (wData, "form")⟩

/-- An intake payload missing two of the three required fields. -/
def wBadData : List (String × JsVal) :=
  [("CRM Last Name", JsVal.str "L"), ("Urgency Level", JsVal.str "High")]

/-- A payload that passes the support normalizer and carries `wUuid` as the
inbound event id. -/
def wSupportData : List (String × JsVal) :=
  [("CF_Support Email", JsVal.str "a@b.com"),
   ("Summary", JsVal.str "Printer on fire"),
   ("eventId", JsVal.str wUuid)]

/-- The POST request carrying `wSupportData` as a parsed form body. -/
def wSupportReq : FormReq := ⟨"POST", Except.ok (wSupportData, "form")⟩

/-- An oracle where every call succeeds except the canonical account write,
which throws. -/
def wOrcAccFail : Oracle :=
  { Oracle.allOk (some "T-1") with putAccount := Outcome.fail "R2 put failed" }

/-- The computation never erases trace events: it can only append to them. -/
def evExtends {α : Type} (m : M α) : Prop :=
  ∀ s r s1, m s = (r, s1) → ∃ t, s1.events = s.events ++ t

theorem alookup_aset_self {α : Type} (l : List (String × α)) (k : String) (v : α) :
    alookup (aset l k v) k = some v := by
  induction l with
  | nil => simp [aset, alookup]
  | cons hd tl ih =>
    obtain ⟨k0, v0⟩ := hd
    by_cases h : k0 = k
    · simp [aset, alookup, h]
    · simp [aset, alookup, h, ih]

theorem alookup_aset_ne {α : Type} (l : List (String × α)) (k k2 : String) (v : α)
    (h : k2 ≠ k) : alookup (aset l k v) k2 = alookup l k2 := by
  have hk : (k == k2) = false := by
    simp only [beq_eq_false_iff_ne, ne_eq]
    exact fun hh => h hh.symm
  induction l with
  | nil => simp [aset, alookup, hk]
  | cons hd tl ih =>
    obtain ⟨k0, v0⟩ := hd
    by_cases h0 : k0 = k
    · subst h0
      simp [aset, alookup, hk]
    · simp [aset, alookup, beq_iff_eq, h0, ih]

/-! ## String-length lemmas for the identity resolver -/

theorem hexByte_length (b : Nat) : (hexByte b).length = 2 := rfl

theorem foldl_append_hex_length (l : List Nat) :
    ∀ acc : String,
      (List.foldl (fun r t => r ++ t) acc (l.map hexByte)).length =
        acc.length + 2 * l.length := by
  induction l with
  | nil => intro acc; simp
  | cons b tl ih =>
    intro acc
    rw [List.map_cons, List.foldl_cons, ih, String.length_append, hexByte_length,
      List.length_cons]
    ring

theorem sha256Hex_length (s : String) : (sha256Hex s).length = 64 := by
  have hdig : (digestBytes (sha256Words (utf8Encode s))).length = 32 := by
    simp [digestBytes, wordBytes]
  have := foldl_append_hex_length (digestBytes (sha256Words (utf8Encode s))) ""
  simp only [sha256Hex, String.join]
  rw [show ("" : String).length = 0 from rfl] at this
  omega

theorem strSlice_length (s : String) (a b : Nat) :
    (strSlice s a b).length = min (b - a) (s.length - a) := by
  show ((s.toList.drop a).take (b - a)).length = min (b - a) (s.length - a)
  rw [List.length_take, List.length_drop]
  rfl

/-- **C7.** For all case and surrounding-whitespace variants of the same
email — any two inputs with the same trimmed, lower-cased form — the resolved
`accountId` is identical: the id is computed deterministically by hashing the
normalized email with SHA-256 (`sha256Hex`) and reshaping the digest into a
fixed-format (36-character, UUID-shaped) id, with no lookup table involved
(`accountIdFromEmail` reads no store). -/
theorem identity_resolution_deterministic (e1 e2 : String)
    (h : jsToLower (jsTrim e1) = jsToLower (jsTrim e2)) :
    accountIdFromEmail e1 = accountIdFromEmail e2 ∧
      (accountIdFromEmail e1).length = 36 := by
  constructor
  · simp only [accountIdFromEmail, h]
  · simp only [accountIdFromEmail, String.length_append, strSlice_length,
      sha256Hex_length]
    decide

/-- Witness for C7: `"Ada@Example.COM"` and `"  ada@example.com "` normalize
identically, hence resolve to the same fixed-format id. -/
theorem identity_resolution_deterministic_witness :
    jsToLower (jsTrim "Ada@Example.COM") = jsToLower (jsTrim "  ada@example.com ") ∧
      (accountIdFromEmail "Ada@Example.COM" = accountIdFromEmail "  ada@example.com " ∧
        (accountIdFromEmail "Ada@Example.COM").length = 36) :=
  ⟨by decide,
   identity_resolution_deterministic "Ada@Example.COM" "  ada@example.com " (by decide)⟩

/-- **C8.** The upsert merge is frame-preserving. An order-lifecycle event
writes `{ ...existingAccount, activeOrders: dedup([...existing, orderId]) }`:
every field of the existing account document other than `activeOrders` is
carried over unchanged. An intake event (`intakeMergedAccount`) preserves the
existing account's `activeOrders`, `stripeCustomerId` and `clickUp` fields
while writing the intake-owned fields; the `stripeCustomerId` carry-over goes
through JS `existing?.stripeCustomerId || null`, so the (never stored)
empty-string value is excluded by hypothesis. -/
theorem canonical_upsert_frame :
    (∀ (ex : Account) (n : NormIntake) (accountId : String),
        ex.stripeCustomerId ≠ some "" →
        (intakeMergedAccount (some ex) n accountId).activeOrders = ex.activeOrders ∧
          (intakeMergedAccount (some ex) n accountId).stripeCustomerId =
            ex.stripeCustomerId ∧
          (intakeMergedAccount (some ex) n accountId).clickUp = ex.clickUp) ∧
    (∀ (ex : Account) (orderId : String),
        (orderMergedAccount ex orderId).accountId = ex.accountId ∧
          (orderMergedAccount ex orderId).firstName = ex.firstName ∧
          (orderMergedAccount ex orderId).lastName = ex.lastName ∧
          (orderMergedAccount ex orderId).lifecycleState = ex.lifecycleState ∧
          (orderMergedAccount ex orderId).metadata = ex.metadata ∧
          (orderMergedAccount ex orderId).primaryEmail = ex.primaryEmail ∧
          (orderMergedAccount ex orderId).stripeCustomerId = ex.stripeCustomerId ∧
          (orderMergedAccount ex orderId).clickUp = ex.clickUp ∧
          (orderMergedAccount ex orderId).activeOrders =
            jsSetDedup (ex.activeOrders ++ [orderId])) := by
  constructor
  · intro ex n accountId hs
    refine ⟨rfl, ?_, rfl⟩
    cases hx : ex.stripeCustomerId with
    | none => simp [intakeMergedAccount, jsIdOrNull, Option.bind, hx]
    | some str =>
      have hne : str ≠ "" := fun he => hs (by rw [hx, he])
      simp [intakeMergedAccount, jsIdOrNull, Option.bind, hx, hne]
  · intro ex orderId
    exact ⟨rfl, rfl, rfl, rfl, rfl, rfl, rfl, rfl, rfl⟩

/-- Witness for C8 at a concrete existing account. -/
theorem canonical_upsert_frame_witness :
    (Account.stripeCustomerId
        ⟨"id1", ["o1"], "Ada", "L", "paid", ⟨"", "", "", "", "", "", "", "", ""⟩,
         "a@b.c", some "cus_1", ⟨some "t1"⟩⟩ ≠ some "") ∧
      ((intakeMergedAccount
          (some ⟨"id1", ["o1"], "Ada", "L", "paid",
            ⟨"", "", "", "", "", "", "", "", ""⟩, "a@b.c", some "cus_1",
            ⟨some "t1"⟩⟩)
          ⟨"", "", "F", "", "", "", "", "L2", "", "e@f.g", "", ""⟩
          "id1").activeOrders = ["o1"] ∧
        (intakeMergedAccount
          (some ⟨"id1", ["o1"], "Ada", "L", "paid",
            ⟨"", "", "", "", "", "", "", "", ""⟩, "a@b.c", some "cus_1",
            ⟨some "t1"⟩⟩)
          ⟨"", "", "F", "", "", "", "", "L2", "", "e@f.g", "", ""⟩
          "id1").stripeCustomerId = some "cus_1" ∧
        (intakeMergedAccount
          (some ⟨"id1", ["o1"], "Ada", "L", "paid",
            ⟨"", "", "", "", "", "", "", "", ""⟩, "a@b.c", some "cus_1",
            ⟨some "t1"⟩⟩)
          ⟨"", "", "F", "", "", "", "", "L2", "", "e@f.g", "", ""⟩
          "id1").clickUp = ⟨some "t1"⟩) :=
  ⟨by decide,
   canonical_upsert_frame.1
     ⟨"id1", ["o1"], "Ada", "L", "paid", ⟨"", "", "", "", "", "", "", "", ""⟩,
      "a@b.c", some "cus_1", ⟨some "t1"⟩⟩
     ⟨"", "", "F", "", "", "", "", "L2", "", "e@f.g", "", ""⟩
     "id1" (by decide)⟩


/-! ## Monad run lemmas -/

theorem bind_run {α β : Type} (x : M α) (f : α → M β) (s : S) :
    (x >>= f) s =
      match x s with
      | (Except.ok a, s1) => f a s1
      | (Except.error e, s1) => (Except.error e, s1) := rfl

theorem pure_run {α : Type} (a : α) (s : S) : (pure a : M α) s = (Except.ok a, s) := rfl

theorem tryCatchM_run {α : Type} (x : M α) (handler : String → M α) (s : S) :
    tryCatchM x handler s =
      match x s with
      | (Except.ok a, s1) => (Except.ok a, s1)
      | (Except.error e, s1) => handler e s1 := rfl

/-- **C6.** Throttle correctness, in the pieces of `enforceEmailThrottle`:
(1) when the day-adjusted count has reached `maxPerDay` the request is
rejected with a retry hint, regardless of elapsed cooldown; (2) when under
the cap but within the cooldown window, it is rejected with a positive retry
hint equal to the seconds until the cooldown clears; (3) otherwise the count
is incremented and `lastAt` is set to now; (4) the count resets at the UTC
day boundary (a stored day key other than today's yields count 0); (5) on
allow, the incremented state is persisted at the throttle key and the
request is allowed; (6) on rejection nothing is persisted. -/
theorem throttle_guard_correct (existing : Option ThrottleState)
    (today nowIso scp email : String) (nowMs cooldown : Int) (maxPerDay : Nat)
    (next : ThrottleState) (e : String) (r : Int) (ret : Option String)
    (orc : Oracle) (s : S) :
    (throttleCount existing today ≥ maxPerDay →
      throttleDecision existing today nowMs nowIso cooldown maxPerDay scp =
        ThrottleDecision.reject "Daily submission limit reached for this email."
          86400) ∧
    (throttleCount existing today < maxPerDay →
      ∀ ssl : Int, secondsSinceLast existing nowMs = some ssl → ssl < cooldown →
        throttleDecision existing today nowMs nowIso cooldown maxPerDay scp =
          ThrottleDecision.reject "Please wait before submitting again."
            (cooldown - ssl) ∧ 0 < cooldown - ssl) ∧
    (throttleCount existing today < maxPerDay →
      (∀ ssl : Int, secondsSinceLast existing nowMs = some ssl → cooldown ≤ ssl) →
      throttleDecision existing today nowMs nowIso cooldown maxPerDay scp =
        ThrottleDecision.allow
          ⟨throttleCount existing today + 1, today, some nowMs, scp, nowIso⟩) ∧
    (throttleSameDay existing today = false → throttleCount existing today = 0) ∧
    (jsToLower (jsTrim email) ≠ "" →
      throttleDecision
          (alookup s.store.throttles
            ("rate/" ++ scp ++ "/email/" ++
              sha256Hex (jsToLower (jsTrim email)) ++ ".json"))
          (dayKeyUTC nowMs) nowMs nowIso cooldown maxPerDay scp =
        ThrottleDecision.allow next →
      orc.putThrottle = Outcome.ok ret →
      enforceEmailThrottle orc email nowMs nowIso cooldown maxPerDay scp s =
        (Except.ok ThrottleRes.allow,
         ⟨{ s.store with
              throttles := aset s.store.throttles
                ("rate/" ++ scp ++ "/email/" ++
                  sha256Hex (jsToLower (jsTrim email)) ++ ".json") next },
          s.events ++
            [Event.putThrottle
              ("rate/" ++ scp ++ "/email/" ++
                sha256Hex (jsToLower (jsTrim email)) ++ ".json") next]⟩)) ∧
    (jsToLower (jsTrim email) ≠ "" →
      throttleDecision
          (alookup s.store.throttles
            ("rate/" ++ scp ++ "/email/" ++
              sha256Hex (jsToLower (jsTrim email)) ++ ".json"))
          (dayKeyUTC nowMs) nowMs nowIso cooldown maxPerDay scp =
        ThrottleDecision.reject e r →
      enforceEmailThrottle orc email nowMs nowIso cooldown maxPerDay scp s =
        (Except.ok (ThrottleRes.reject e r), s)) := by
  refine ⟨?_, ?_, ?_, ?_, ?_, ?_⟩
  · intro hcap
    simp [throttleDecision, hcap]
  · intro hcap ssl hssl hcool
    have hnot : ¬ throttleCount existing today ≥ maxPerDay := by omega
    refine ⟨?_, by omega⟩
    simp [throttleDecision, hnot, hssl, hcool]
  · intro hcap hge
    have hnot : ¬ throttleCount existing today ≥ maxPerDay := by omega
    simp only [throttleDecision, if_neg hnot]
    cases hssl : secondsSinceLast existing nowMs with
    | none => rfl
    | some ssl =>
      have := hge ssl hssl
      have hnotlt : ¬ ssl < cooldown := by omega
      simp [hnotlt]
  · intro hday
    simp [throttleCount, hday]
  · intro hclean hdec horc
    simp only [enforceEmailThrottle, if_neg hclean, bind_run, getStore, pure_run]
    rw [hdec]
    simp only [bind_run, putThrottleR2, horc, pure_run]
  · intro hclean hdec
    simp only [enforceEmailThrottle, if_neg hclean, bind_run, getStore, pure_run]
    rw [hdec]
    rfl

/-- Witness for C6: with a prior acceptance 300 s ago, a 600 s cooldown and
a cap of 3, the second submission is rejected with retry hint 300 > 0; and a
first-ever submission is allowed and its incremented state persisted. -/
theorem throttle_guard_correct_witness :
    (throttleCount (some ⟨1, "2025-10-11", some 1760140600000, "form:intake", "t0"⟩)
        "2025-10-11" < 3 ∧
      secondsSinceLast
          (some ⟨1, "2025-10-11", some 1760140600000, "form:intake", "t0"⟩)
          1760140900000 = some 300 ∧
      (300 : Int) < 600) ∧
    (throttleDecision
        (some ⟨1, "2025-10-11", some 1760140600000, "form:intake", "t0"⟩)
        "2025-10-11" 1760140900000 "iso" 600 3 "form:intake" =
      ThrottleDecision.reject "Please wait before submitting again." (600 - 300) ∧
      (0 : Int) < 600 - 300) ∧
    enforceEmailThrottle (Oracle.allOk none) "a@b.com" 1760140900000 "iso" 600 3
        "form:intake" ⟨Store.empty, []⟩ =
      (Except.ok ThrottleRes.allow,
       ⟨{ Store.empty with
            throttles := aset Store.empty.throttles
              ("rate/" ++ "form:intake" ++ "/email/" ++
                sha256Hex (jsToLower (jsTrim "a@b.com")) ++ ".json")
              ⟨1, "2025-10-11", some 1760140900000, "form:intake", "iso"⟩ },
        (⟨Store.empty, []⟩ : S).events ++
          [Event.putThrottle
            ("rate/" ++ "form:intake" ++ "/email/" ++
              sha256Hex (jsToLower (jsTrim "a@b.com")) ++ ".json")
            ⟨1, "2025-10-11", some 1760140900000, "form:intake", "iso"⟩]⟩) :=
  ⟨⟨by decide, by decide, by decide⟩,
   (throttle_guard_correct
      (some ⟨1, "2025-10-11", some 1760140600000, "form:intake", "t0"⟩)
      "2025-10-11" "iso" "form:intake" "a@b.com" 1760140900000 600 3
      ⟨1, "2025-10-11", some 1760140900000, "form:intake", "iso"⟩ "" 0 none
      (Oracle.allOk none) ⟨Store.empty, []⟩).2.1
     (by decide) 300 (by decide) (by decide),
   (throttle_guard_correct
      (some ⟨1, "2025-10-11", some 1760140600000, "form:intake", "t0"⟩)
      "2025-10-11" "iso" "form:intake" "a@b.com" 1760140900000 600 3
      ⟨1, "2025-10-11", some 1760140900000, "form:intake", "iso"⟩ "" 0 none
      (Oracle.allOk none) ⟨Store.empty, []⟩).2.2.2.2.1
     (by decide) (by decide) (by decide)⟩

/-- **C3.** Idempotency short-circuit: when the stored receipt for the
submitted (UUID-shaped) `eventId` has `processed = true`, the intake and
order handlers return 200 with the explicit `idempotent` indicator and the
state is returned untouched — no throttle write, no receipt write, no
canonical write, no ClickUp call, no trace event; canonical state is
unchanged and no second tracker record is created. -/
theorem idempotent_replay_short_circuits (env : Env) (orc : Oracle)
    (req : FormReq) (freshId nowIso : String) (nowMs : Int) (s : S)
    (data : List (String × JsVal)) (ra ev : String) (rec : Receipt)
    (hm : jsToUpper req.method = "POST") (hr : env.r2Bucket = true)
    (hp : req.parsed = Except.ok (data, ra))
    (hev : alookup data "eventId" = some (JsVal.str ev))
    (huuid : uuidTest (jsTrim ev) = true)
    (hrec : alookup s.store.receipts ("receipts/form/" ++ jsTrim ev ++ ".json") =
      some rec)
    (hproc : rec.processed = true) :
    ((normalizeIntakePayload data).missing = [] →
      handleFormsIntake env orc req freshId nowIso nowMs s =
        (Except.ok ⟨200, RespBody.idempotent (jsTrim ev), none⟩, s)) ∧
    ((normalizeOrderPayload data).missing = [] →
      handleFormsOrder env orc req freshId nowIso nowMs s =
        (Except.ok ⟨200, RespBody.idempotent (jsTrim ev), none⟩, s)) := by
  constructor
  · intro hmiss
    simp only [handleFormsIntake, hm, hr, hp, hmiss, eventIdFrom, hev, huuid,
      if_true, ne_eq, not_true_eq_false, if_false, Bool.not_true, if_neg,
      bind_run, getStore, pure_run, hrec, hproc]
    simp [bind_run, getStore, pure_run, hrec, hproc]
  · intro hmiss
    simp only [handleFormsOrder, hm, hr, hp, hmiss, eventIdFrom, hev, huuid,
      if_true, ne_eq, not_true_eq_false, if_false, Bool.not_true, if_neg,
      bind_run, getStore, pure_run, hrec, hproc]
    simp [bind_run, getStore, pure_run, hrec, hproc]

/-- Witness for C3: a replay of `wUuid` against a ledger where its receipt is
already `processed = true` returns the idempotent success untouched, on both
the intake and the order route. -/
theorem idempotent_replay_short_circuits_witness :
    (jsToUpper wReq.method = "POST" ∧ uuidTest (jsTrim wUuid) = true ∧
      (normalizeIntakePayload wData).missing = [] ∧
      (normalizeOrderPayload wData).missing = [] ∧
      wProcessedReceipt.processed = true) ∧
    handleFormsIntake wEnv (Oracle.allOk (some "t1")) wReq "fresh" "iso" 0
        wStateProcessed =
      (Except.ok ⟨200, RespBody.idempotent (jsTrim wUuid), none⟩, wStateProcessed) ∧
    handleFormsOrder wEnv (Oracle.allOk (some "t1")) wReq "fresh" "iso" 0
        wStateProcessed =
      (Except.ok ⟨200, RespBody.idempotent (jsTrim wUuid), none⟩, wStateProcessed) :=
  ⟨⟨by decide, by decide, by decide, by decide, by decide⟩,
   (idempotent_replay_short_circuits wEnv (Oracle.allOk (some "t1")) wReq "fresh"
      "iso" 0 wStateProcessed wData "form" wUuid wProcessedReceipt (by decide)
      (by decide) rfl (by decide) (by decide) (by decide) (by decide)).1
     (by decide),
   (idempotent_replay_short_circuits wEnv (Oracle.allOk (some "t1")) wReq "fresh"
      "iso" 0 wStateProcessed wData "form" wUuid wProcessedReceipt (by decide)
      (by decide) rfl (by decide) (by decide) (by decide) (by decide)).2
     (by decide)⟩

/-- **C9.** Validation rejection: when any required intake field is empty or
absent, the handler replies 400 with the `missing` list and returns the state
untouched — no receipt write, no canonical write, no event of any kind.
Moreover the `missing` list itemizes *every* failing required field, not just
the first: membership is characterized exactly by which of the three required
fields normalize to the empty string. -/
theorem validation_rejects_with_all_missing_fields (env : Env) (orc : Oracle)
    (req : FormReq) (freshId nowIso : String) (nowMs : Int) (s : S)
    (data : List (String × JsVal)) (ra : String)
    (hm : jsToUpper req.method = "POST") (hr : env.r2Bucket = true)
    (hp : req.parsed = Except.ok (data, ra))
    (hmiss : (normalizeIntakePayload data).missing ≠ []) :
    handleFormsIntake env orc req freshId nowIso nowMs s =
      (Except.ok ⟨400, RespBody.missingFields (normalizeIntakePayload data).missing,
        none⟩, s) ∧
    (∀ fld : String,
      fld ∈ (normalizeIntakePayload data).missing ↔
        (fld = "CRM First Name" ∧ jget data "CRM First Name" = "") ∨
        (fld = "CRM Last Name" ∧ jget data "CRM Last Name" = "") ∨
        (fld = "CRM Primary Email" ∧ jget data "CRM Primary Email" = "")) := by
  constructor
  · simp only [handleFormsIntake, hm, hr, hp, ne_eq, not_true_eq_false, if_false,
      if_neg, if_true]
    simp [hmiss, pure_run]
  · intro fld
    by_cases h1 : jget data "CRM First Name" = "" <;>
      by_cases h2 : jget data "CRM Last Name" = "" <;>
        by_cases h3 : jget data "CRM Primary Email" = "" <;>
          simp [normalizeIntakePayload, h1, h2, h3]

/-- Witness for C9: a payload missing both the first name and the primary
email is rejected with *both* fields itemized and the state untouched. -/
theorem validation_rejects_with_all_missing_fields_witness :
    (normalizeIntakePayload wBadData).missing =
        ["CRM First Name", "CRM Primary Email"] ∧
    handleFormsIntake wEnv (Oracle.allOk none)
        ⟨"POST", Except.ok (wBadData, "form")⟩ "fresh" "iso" 0 ⟨Store.empty, []⟩ =
      (Except.ok ⟨400,
        RespBody.missingFields (normalizeIntakePayload wBadData).missing, none⟩,
       ⟨Store.empty, []⟩) :=
  ⟨by decide,
   (validation_rejects_with_all_missing_fields wEnv (Oracle.allOk none)
      ⟨"POST", Except.ok (wBadData, "form")⟩ "fresh" "iso" 0 ⟨Store.empty, []⟩
      wBadData "form" (by decide) (by decide) rfl (by decide)).1⟩

/-- **C1** (code bug). The `/stripe/webhook` and `/cal/webhook` handlers are
stubs: for every request and state, the state comes back untouched (so in
particular no ledger write ever happens on these routes) and the response is
completely independent of the signature header — there is no verification
step at all, and the JSON body *is* parsed. Concretely, a POST whose body
bytes differ from whatever bytes a provider signed — here a mutated body
carried together with the stale signature header of the original bytes — is
accepted with 200/`ok` instead of being rejected with an authentication
error. This contradicts the repository's own README ("Stripe and Cal
webhooks require signature validation") and the spec. -/
theorem webhook_stubs_skip_signature_verification :
    (∀ (req : WebhookReq) (s : S) (h2 : Option String),
        (handleStripeWebhook req s).2 = s ∧
        (handleCalWebhook req s).2 = s ∧
        handleStripeWebhook ⟨req.method, req.rawBody, h2⟩ s =
          handleStripeWebhook req s ∧
        handleCalWebhook ⟨req.method, req.rawBody, h2⟩ s =
          handleCalWebhook req s) ∧
    handleStripeWebhook
        ⟨"POST", "\x7b\"id\":\"evt_1\",\"amount\":999\x7d",
         some "v1=hmac-of-the-original-unmutated-bytes"⟩ ⟨Store.empty, []⟩ =
      (Except.ok ⟨200, RespBody.webhookOk, none⟩, ⟨Store.empty, []⟩) := by
  constructor
  · intro req s h2
    refine ⟨?_, ?_, rfl, rfl⟩
    · simp only [handleStripeWebhook]
      split
      · rfl
      · split <;> rfl
    · simp only [handleCalWebhook]
      split
      · rfl
      · split <;> rfl
  · rfl

/-! ## Trace lemmas -/

theorem isCanonEv_false_of_proj (e : Event) (h : isProjEv e = true) :
    isCanonEv e = false := by
  cases e <;> simp_all [isProjEv, isCanonEv]

theorem projAfterCanon_of_B (l : List Event) (hB : projAfterCanonB l = true) :
    projAfterCanon l := by
  induction l with
  | nil => intro i hi _; simp at hi
  | cons e rest ih =>
    intro i hi hp
    simp only [projAfterCanonB] at hB
    by_cases hc : isCanonEv e = true
    · match i with
      | 0 =>
        simp only [List.getElem_cons_zero] at hp
        rw [isCanonEv_false_of_proj e hp] at hc
        exact absurd hc (by simp)
      | i' + 1 =>
        exact ⟨0, by simp, by omega, by simpa using hc⟩
    · rw [if_neg hc] at hB
      by_cases hpe : isProjEv e = true
      · rw [if_pos hpe] at hB
        exact absurd hB (by simp)
      · rw [if_neg hpe] at hB
        match i with
        | 0 =>
          simp only [List.getElem_cons_zero] at hp
          exact absurd hp hpe
        | i' + 1 =>
          simp only [List.getElem_cons_succ] at hp
          obtain ⟨j, hj, hji, hcj⟩ := ih hB i' (by simpa using hi) hp
          exact ⟨j + 1, by simpa using hj, by omega, by simpa using hcj⟩

/-- Events that are neither projections nor canonical writes (throttle and
receipt puts) are neutral for the scan. -/
theorem projAfterCanonB_neutral_append (t rest : List Event)
    (h : ∀ e ∈ t, isProjEv e = false ∧ isCanonEv e = false) :
    projAfterCanonB (t ++ rest) = projAfterCanonB rest := by
  induction t with
  | nil => simp
  | cons e t' ih =>
    have he := h e (by simp)
    simp only [List.cons_append, projAfterCanonB, he.1, he.2, if_false,
      Bool.false_eq_true]
    exact ih (fun x hx => h x (by simp [hx]))

theorem alookup_aset_presence {α : Type} (l : List (String × α)) (k k2 : String)
    (v : α) (h : alookup l k2 ≠ none) : alookup (aset l k v) k2 ≠ none := by
  by_cases he : k2 = k
  · subst he
    rw [alookup_aset_self]
    simp
  · rw [alookup_aset_ne l k k2 v he]
    exact h

/-- Effects of the throttle check: only the throttle map can change, and the
trace grows only by neutral (non-projection, non-canonical) events. -/
theorem enforce_effects (orc : Oracle) (email nowIso scp : String)
    (nowMs cooldown : Int) (maxPerDay : Nat) (s : S)
    (r : Except String ThrottleRes) (s1 : S)
    (h : enforceEmailThrottle orc email nowMs nowIso cooldown maxPerDay scp s =
      (r, s1)) :
    (s1.store.receipts = s.store.receipts ∧
      s1.store.accounts = s.store.accounts ∧
      s1.store.orders = s.store.orders ∧
      s1.store.support = s.store.support) ∧
    ∃ t, s1.events = s.events ++ t ∧
      ∀ e ∈ t, isProjEv e = false ∧ isCanonEv e = false := by
  simp only [enforceEmailThrottle] at h
  by_cases hc : jsToLower (jsTrim email) = ""
  · rw [if_pos hc, pure_run] at h
    injection h with h1 h2
    subst h2
    exact ⟨⟨rfl, rfl, rfl, rfl⟩, [], by simp, by simp⟩
  · rw [if_neg hc] at h
    cases hd : throttleDecision
        (alookup s.store.throttles
          ("rate/" ++ scp ++ "/email/" ++ sha256Hex (jsToLower (jsTrim email)) ++
            ".json"))
        (dayKeyUTC nowMs) nowMs nowIso cooldown maxPerDay scp with
    | reject err retry =>
      simp only [bind_run, getStore, hd, pure_run] at h
      injection h with h1 h2
      subst h2
      exact ⟨⟨rfl, rfl, rfl, rfl⟩, [], by simp, by simp⟩
    | allow next =>
      simp only [bind_run, getStore, hd] at h
      cases ho : orc.putThrottle with
      | fail msg =>
        simp only [bind_run, putThrottleR2, ho] at h
        injection h with h1 h2
        subst h2
        exact ⟨⟨rfl, rfl, rfl, rfl⟩, [], by simp, by simp⟩
      | ok ret =>
        simp only [bind_run, putThrottleR2, ho, pure_run] at h
        injection h with h1 h2
        subst h2
        refine ⟨⟨rfl, rfl, rfl, rfl⟩,
          [Event.putThrottle
            ("rate/" ++ scp ++ "/email/" ++ sha256Hex (jsToLower (jsTrim email)) ++
              ".json") next], by simp, ?_⟩
        intro e he
        simp only [List.mem_singleton] at he
        subst he
        exact ⟨rfl, rfl⟩

/-- Effects of `ensureClickUpAccountTask`: receipts, orders, support and
throttle maps are untouched; account keys already present stay present (the
only write is the patch of `accountKey`); the trace only grows. -/
theorem ensure_effects (env : Env) (orc : Oracle) (account : Account)
    (accountKey : String) (s : S) (r : Except String (Option String)) (s1 : S)
    (h : ensureClickUpAccountTask env orc account accountKey s = (r, s1)) :
    (s1.store.receipts = s.store.receipts ∧
      s1.store.orders = s.store.orders ∧
      s1.store.support = s.store.support ∧
      s1.store.throttles = s.store.throttles) ∧
    (∀ k, alookup s.store.accounts k ≠ none → alookup s1.store.accounts k ≠ none) ∧
    ∃ t, s1.events = s.events ++ t ∧
      (∀ k o, Event.putOrder k o ∉ t) ∧
      (∀ k sd, Event.putSupport k sd ∉ t) ∧
      ∀ k a, Event.putAccount k a ∈ t →
        k = accountKey ∧ alookup s1.store.accounts k ≠ none := by
  cases hid : jsIdOrNull account.clickUp.accountTaskId with
  | some eid =>
    simp only [ensureClickUpAccountTask, hid, pure_run] at h
    injection h with h1 h2
    subst h2
    exact ⟨⟨rfl, rfl, rfl, rfl⟩, fun k hk => hk, [], by simp, by simp, by simp, by simp⟩
  | none =>
    cases hApi : jsTruthy env.clickUpApiKey with
    | false =>
      simp only [ensureClickUpAccountTask, hid, hApi, Bool.not_false, Bool.true_or,
        pure_run] at h
      injection h with h1 h2
      subst h2
      exact ⟨⟨rfl, rfl, rfl, rfl⟩, fun k hk => hk, [], by simp, by simp, by simp, by simp⟩
    | true =>
      cases hList : jsTruthy env.accountsListId with
      | false =>
        simp only [ensureClickUpAccountTask, hid, hApi, hList, Bool.not_true,
          Bool.not_false, Bool.false_or, pure_run] at h
        injection h with h1 h2
        subst h2
        exact ⟨⟨rfl, rfl, rfl, rfl⟩, fun k hk => hk, [], by simp, by simp, by simp, by simp⟩
      | true =>
        simp only [ensureClickUpAccountTask, hid, hApi, hList, Bool.not_true,
          Bool.false_or, Bool.false_eq_true, if_false] at h
        cases hcr : orc.cuCreateAccount with
        | fail msg =>
          simp only [bind_run, createClickUpAccountTask, hList, Bool.not_true,
            Bool.false_eq_true, if_false, cuRequest, hcr] at h
          injection h with h1 h2
          subst h2
          exact ⟨⟨rfl, rfl, rfl, rfl⟩, fun k hk => hk,
            [Event.cuCreateTask (env.accountsListId.getD "")], by simp, by simp, by simp, by simp⟩
        | ok ret =>
          simp only [bind_run, createClickUpAccountTask, hList, Bool.not_true,
            Bool.false_eq_true, if_false, cuRequest, hcr, pure_run,
            addClickUpComment] at h
          cases hco : jsIdOrNull ret with
          | none =>
            cases hpa : orc.putAccountPatch with
            | fail msg =>
              simp only [hco, pure_run, bind_run, putAccountR2, hpa] at h
              injection h with h1 h2
              subst h2
              exact ⟨⟨rfl, rfl, rfl, rfl⟩, fun k hk => hk,
                [Event.cuCreateTask (env.accountsListId.getD "")], by simp,
                by simp⟩
            | ok ret2 =>
              simp only [hco, pure_run, bind_run, putAccountR2, hpa] at h
              injection h with h1 h2
              subst h2
              exact ⟨⟨rfl, rfl, rfl, rfl⟩,
                fun k hk => alookup_aset_presence _ _ _ _ hk,
                ⟨[Event.cuCreateTask (env.accountsListId.getD ""),
                  Event.putAccount accountKey
                    { account with
                        clickUp := { account.clickUp with accountTaskId := none } }],
                 by simp, by simp, by simp, by simp +contextual [alookup_aset_self]⟩⟩
          | some tid =>
            by_cases htid : tid = ""
            · cases hpa : orc.putAccountPatch with
              | fail msg =>
                simp only [hco, if_pos htid, pure_run, bind_run, putAccountR2,
                  hpa] at h
                injection h with h1 h2
                subst h2
                exact ⟨⟨rfl, rfl, rfl, rfl⟩, fun k hk => hk,
                  [Event.cuCreateTask (env.accountsListId.getD "")], by simp,
                  by simp⟩
              | ok ret2 =>
                simp only [hco, if_pos htid, pure_run, bind_run, putAccountR2,
                  hpa] at h
                injection h with h1 h2
                subst h2
                exact ⟨⟨rfl, rfl, rfl, rfl⟩,
                  fun k hk => alookup_aset_presence _ _ _ _ hk,
                  ⟨[Event.cuCreateTask (env.accountsListId.getD ""),
                    Event.putAccount accountKey
                      { account with
                          clickUp :=
                            { account.clickUp with accountTaskId := some tid } }],
                   by simp, by simp, by simp, by simp +contextual [alookup_aset_self]⟩⟩
            · cases hcm : orc.cuCommentAccount with
              | fail msg =>
                simp only [hco, if_neg htid, bind_run, cuRequest, hcm] at h
                injection h with h1 h2
                subst h2
                exact ⟨⟨rfl, rfl, rfl, rfl⟩, fun k hk => hk,
                  [Event.cuCreateTask (env.accountsListId.getD ""),
                   Event.cuComment tid], by simp, by simp, by simp, by simp⟩
              | ok ret3 =>
                cases hpa : orc.putAccountPatch with
                | fail msg =>
                  simp only [hco, if_neg htid, bind_run, cuRequest, hcm, pure_run,
                    putAccountR2, hpa] at h
                  injection h with h1 h2
                  subst h2
                  exact ⟨⟨rfl, rfl, rfl, rfl⟩, fun k hk => hk,
                    [Event.cuCreateTask (env.accountsListId.getD ""),
                     Event.cuComment tid], by simp, by simp, by simp, by simp⟩
                | ok ret2 =>
                  simp only [hco, if_neg htid, bind_run, cuRequest, hcm, pure_run,
                    putAccountR2, hpa] at h
                  injection h with h1 h2
                  subst h2
                  exact ⟨⟨rfl, rfl, rfl, rfl⟩,
                    fun k hk => alookup_aset_presence _ _ _ _ hk,
                    ⟨[Event.cuCreateTask (env.accountsListId.getD ""),
                      Event.cuComment tid,
                      Event.putAccount accountKey
                        { account with
                            clickUp :=
                              { account.clickUp with accountTaskId := some tid } }],
                     by simp, by simp, by simp, by simp +contextual [alookup_aset_self]⟩⟩

/-- Characterization of the common handler tail
`mC >>= fun cid => putReceiptR2 oD rk (rec2 cid) >>= fun _ => pure (fR cid)`
run under the surrounding `try`/`catch` whose catch writes `recF e` and
answers `fF e`. `mC` (the projection section) is abstract, constrained by
`hmc`: it preserves the receipt map, preserves presence of account keys, and
only ever appends events, its account puts targeting `ak`. -/
theorem handler_tail_spec (mC : M (Option String)) (oD oC : Outcome)
    (rk ak : String) (rec2 : Option String → Receipt) (recF : String → Receipt)
    (fR : Option String → Resp) (fF : String → Resp)
    (hmc : ∀ s r s1, mC s = (r, s1) →
      (s1.store.receipts = s.store.receipts ∧
        (∀ k, alookup s.store.accounts k ≠ none →
          alookup s1.store.accounts k ≠ none)) ∧
      ∃ t, s1.events = s.events ++ t ∧
        ∀ k a, Event.putAccount k a ∈ t → k = ak)
    (hdist : ∀ cid e, fR cid ≠ fF e)
    (hinj : ∀ e e2, fF e = fF e2 → e = e2)
    (s3 : S) (res : Except String Resp) (s2 : S)
    (h : (match (mC >>= fun cid =>
            putReceiptR2 oD rk (rec2 cid) >>= fun _ => pure (fR cid)) s3 with
          | (Except.ok a, s1) => (Except.ok a, s1)
          | (Except.error e, s1) =>
            (putReceiptR2 oC rk (recF e) >>= fun _ => pure (fF e)) s1) =
      (res, s2)) :
    ((∀ k, alookup s3.store.accounts k ≠ none →
        alookup s2.store.accounts k ≠ none) ∧
      ∃ t, s2.events = s3.events ++ t ∧
        ∀ k a, Event.putAccount k a ∈ t → k = ak) ∧
    (∀ r, res = Except.ok r → (∃ cid, r = fR cid) ∨ ∃ e, r = fF e) ∧
    ∀ e : String, res = Except.ok (fF e) →
      alookup s2.store.receipts rk = some (recF e) := by
  rcases hmC : mC s3 with ⟨rc, sc⟩
  obtain ⟨⟨hrec, hpres⟩, t, ht, hput⟩ := hmc s3 rc sc hmC
  simp only [bind_run, hmC] at h
  cases rc with
  | error e =>
    simp only [bind_run, putReceiptR2] at h
    cases hoC : oC with
    | fail m =>
      rw [hoC] at h
      injection h with h1 h2
      subst h1
      subst h2
      refine ⟨⟨hpres, t, ht, hput⟩, ?_, ?_⟩
      · intro r hr
        simp at hr
      · intro e2 hres
        simp at hres
    | ok retC =>
      rw [hoC] at h
      simp only [pure_run] at h
      injection h with h1 h2
      subst h1
      subst h2
      refine ⟨⟨fun k hk => hpres k hk, ⟨t ++ [Event.putReceipt rk (recF e)],
        by simp [ht], ?_⟩⟩, ?_, ?_⟩
      · intro k a hmem
        simp only [List.mem_append, List.mem_singleton] at hmem
        rcases hmem with hmem | hmem
        · exact hput k a hmem
        · exact absurd hmem (by simp)
      · intro r hr
        injection hr with h3
        exact Or.inr ⟨e, h3.symm⟩
      · intro e2 hres
        injection hres with hres2
        have he : e = e2 := hinj e e2 hres2
        subst he
        exact alookup_aset_self _ _ _
  | ok cid =>
    simp only [bind_run, putReceiptR2] at h
    cases hoD : oD with
    | fail m =>
      rw [hoD] at h
      simp only [bind_run, putReceiptR2] at h
      cases hoC : oC with
      | fail m2 =>
        rw [hoC] at h
        injection h with h1 h2
        subst h1
        subst h2
        refine ⟨⟨hpres, t, ht, hput⟩, ?_, ?_⟩
        · intro r hr
          simp at hr
        · intro e2 hres
          simp at hres
      | ok retC =>
        rw [hoC] at h
        simp only [pure_run] at h
        injection h with h1 h2
        subst h1
        subst h2
        refine ⟨⟨fun k hk => hpres k hk, ⟨t ++ [Event.putReceipt rk (recF m)],
          by simp [ht], ?_⟩⟩, ?_, ?_⟩
        · intro k a hmem
          simp only [List.mem_append, List.mem_singleton] at hmem
          rcases hmem with hmem | hmem
          · exact hput k a hmem
          · exact absurd hmem (by simp)
        · intro r hr
          injection hr with h3
          exact Or.inr ⟨m, h3.symm⟩
        · intro e2 hres
          injection hres with hres2
          have he : m = e2 := hinj m e2 hres2
          subst he
          exact alookup_aset_self _ _ _
    | ok retD =>
      rw [hoD] at h
      simp only [pure_run] at h
      injection h with h1 h2
      subst h1
      subst h2
      refine ⟨⟨fun k hk => hpres k hk, ⟨t ++ [Event.putReceipt rk (rec2 cid)],
        by simp [ht], ?_⟩⟩, ?_, ?_⟩
      · intro k a hmem
        simp only [List.mem_append, List.mem_singleton] at hmem
        rcases hmem with hmem | hmem
        · exact hput k a hmem
        · exact absurd hmem (by simp)
      · intro r hr
        injection hr with h3
        exact Or.inl ⟨cid, h3.symm⟩
      · intro e2 hres
        injection hres with hres2
        exact absurd hres2 (hdist cid e2)

/-- Master characterization of an intake run from an empty trace: the trace
never shows a projection call before a canonical write, and a 500
`intakeFailed` response implies the catch path ran: the pre-written receipt
(verbatim raw payload, `processed = false`) is in the ledger with
`processingError` set to the thrown message, its pre-write event is in the
trace, and any account document written during the run is still present. -/
theorem intake_run_spec (env : Env) (orc : Oracle) (req : FormReq)
    (freshId nowIso : String) (nowMs : Int) (store : Store)
    (res : Except String Resp) (s' : S)
    (h : handleFormsIntake env orc req freshId nowIso nowMs ⟨store, []⟩ =
      (res, s')) :
    projAfterCanonB s'.events = true ∧
    ∀ eid msg,
      res = Except.ok ⟨500, RespBody.intakeFailed eid msg, none⟩ →
      ∃ data ra, req.parsed = Except.ok (data, ra) ∧
        eid = eventIdFrom (alookup data "eventId") freshId ∧
        alookup s'.store.receipts ("receipts/form/" ++ eid ++ ".json") =
          some { intakeReceiptPre data eid nowIso with
                   processed := false, processingError := some msg } ∧
        Event.putReceipt ("receipts/form/" ++ eid ++ ".json")
          (intakeReceiptPre data eid nowIso) ∈ s'.events ∧
        ∀ k a, Event.putAccount k a ∈ s'.events →
          alookup s'.store.accounts k ≠ none := by
  simp only [handleFormsIntake] at h
  by_cases hm : jsToUpper req.method = "POST"
  case neg =>
    rw [if_pos hm, pure_run] at h
    injection h with h1 h2
    subst h1
    subst h2
    exact ⟨by simp [projAfterCanonB], by intro eid msg hres; simp at hres⟩
  case pos =>
  rw [if_neg (fun hc => hc hm)] at h
  cases hb : env.r2Bucket with
  | false =>
    simp only [hb, Bool.not_false, if_true, pure_run] at h
    injection h with h1 h2
    subst h1
    subst h2
    exact ⟨by simp [projAfterCanonB], by intro eid msg hres; simp at hres⟩
  | true =>
  simp only [hb, Bool.not_true, Bool.false_eq_true, if_false] at h
  cases hp : req.parsed with
  | error ed =>
    simp only [hp, pure_run] at h
    injection h with h1 h2
    subst h1
    subst h2
    exact ⟨by simp [projAfterCanonB], by intro eid msg hres; simp at hres⟩
  | ok pr =>
  obtain ⟨data, ra⟩ := pr
  simp only [hp, pure_run] at h
  by_cases hmiss : (normalizeIntakePayload data).missing = []
  case neg =>
    rw [if_pos hmiss, pure_run] at h
    injection h with h1 h2
    subst h1
    subst h2
    exact ⟨by simp [projAfterCanonB], by intro eid msg hres; simp at hres⟩
  case pos =>
  rw [if_neg (fun hc => hc hmiss)] at h
  simp only [bind_run, getStore] at h
  by_cases hgate :
      (match alookup store.receipts
          ("receipts/form/" ++ eventIdFrom (alookup data "eventId") freshId ++
            ".json") with
        | some r => r.processed
        | none => false) = true
  case pos =>
    rw [if_pos hgate, pure_run] at h
    injection h with h1 h2
    subst h1
    subst h2
    exact ⟨by simp [projAfterCanonB], by intro eid msg hres; simp at hres⟩
  case neg =>
  rw [if_neg hgate] at h
  rcases hthr : enforceEmailThrottle orc
      (normalizeIntakePayload data).normalized.primaryEmail nowMs nowIso 600 3
      "form:intake" ⟨store, []⟩ with ⟨resT, s1⟩
  obtain ⟨-, t1, hev1, hneu1⟩ :=
    enforce_effects _ _ _ _ _ _ _ _ _ _ hthr
  simp only [List.nil_append] at hev1
  have hBt1 : ∀ rest, projAfterCanonB (t1 ++ rest) = projAfterCanonB rest :=
    fun rest => projAfterCanonB_neutral_append t1 rest hneu1
  cases resT with
  | error m =>
    simp only [bind_run, hthr] at h
    injection h with h1 h2
    subst h1
    subst h2
    refine ⟨?_, by intro eid msg hres; simp at hres⟩
    rw [hev1]
    have := hBt1 []
    simpa using this
  | ok thr =>
  cases thr with
  | reject terr tretry =>
    simp only [bind_run, hthr, pure_run] at h
    injection h with h1 h2
    subst h1
    subst h2
    refine ⟨?_, by intro eid msg hres; simp at hres⟩
    rw [hev1]
    have := hBt1 []
    simpa using this
  | allow =>
  simp only [bind_run, hthr] at h
  cases hpr : orc.putReceiptPre with
  | fail m =>
    simp only [bind_run, putReceiptR2, hpr] at h
    injection h with h1 h2
    subst h1
    subst h2
    refine ⟨?_, by intro eid msg hres; simp at hres⟩
    rw [hev1]
    have := hBt1 []
    simpa using this
  | ok retP =>
  simp only [bind_run, putReceiptR2, hpr, tryCatchM_run, getStore] at h
  cases hpa : orc.putAccount with
  | fail m =>
    simp only [putAccountR2, hpa, bind_run, putReceiptR2] at h
    cases hpc : orc.putReceiptCatch with
    | fail m2 =>
      rw [hpc] at h
      injection h with h1 h2
      subst h1
      subst h2
      refine ⟨?_, by intro eid msg hres; simp at hres⟩
      simp only [hev1]
      rw [hBt1]
      simp [projAfterCanonB, isCanonEv, isProjEv]
    | ok retC =>
      rw [hpc] at h
      simp only [pure_run] at h
      injection h with h1 h2
      subst h1
      subst h2
      refine ⟨?_, ?_⟩
      · simp only [hev1]
        rw [List.append_assoc, hBt1]
        simp [projAfterCanonB, isCanonEv, isProjEv]
      · intro eid msg hres
        injection hres with hres1
        injection hres1 with hs hbody hretry
        injection hbody with heid hmsg
        subst heid
        subst hmsg
        refine ⟨data, ra, rfl, rfl, ?_, ?_, ?_⟩
        · simp [alookup_aset_self, intakeReceiptPre]
        · simp [intakeReceiptPre]
        · intro k a hmem
          exfalso
          simp only [hev1, List.mem_append, List.mem_singleton] at hmem
          rcases hmem with (hmem | hmem) | hmem
          · exact absurd (hneu1 _ hmem).2 (by simp [isCanonEv])
          · exact absurd hmem (by simp)
          · exact absurd hmem (by simp)
  | ok retA =>
  simp only [putAccountR2, hpa] at h
  by_cases hg : (jsTruthy env.clickUpApiKey && jsTruthy env.accountsListId) = true
  · rw [if_pos hg] at h
    simp only [bind_run] at h
    split at h
    next xx aa sb heq =>
      split at heq
      next yy s4 heq2 =>
        obtain ⟨⟨hrec4, hord4, hsup4, hthr4⟩, hpres4, t2, ht2, -, -, hput2⟩ :=
          ensure_effects _ _ _ _ _ _ _ heq2
        cases hpd : orc.putReceiptDone with
        | fail m =>
          simp only [bind_run, putReceiptR2, hpd] at heq
          exact absurd heq (by simp)
        | ok retD =>
          simp only [bind_run, putReceiptR2, hpd, pure_run] at heq
          injection heq with hqa hqs
          injection hqa with hqa2
          subst hqa2
          subst hqs
          injection h with h1 h2
          subst h1
          subst h2
          refine ⟨?_, by intro eid msg hres; simp at hres⟩
          simp only [ht2, hev1, List.append_assoc, List.cons_append,
            List.singleton_append, List.nil_append]
          rw [hBt1]
          simp [projAfterCanonB, isCanonEv, isProjEv]
      next ee s4 heq2 =>
        simp at heq
    next xx ee sb heq =>
      split at heq
      next yy s4 heq2 =>
        obtain ⟨⟨hrec4, hord4, hsup4, hthr4⟩, hpres4, t2, ht2, -, -, hput2⟩ :=
          ensure_effects _ _ _ _ _ _ _ heq2
        cases hpd : orc.putReceiptDone with
        | ok retD =>
          simp only [bind_run, putReceiptR2, hpd, pure_run] at heq
          exact absurd heq (by simp)
        | fail m =>
          simp only [bind_run, putReceiptR2, hpd] at heq
          injection heq with hqa hqs
          injection hqa with hqa2
          subst hqa2
          subst hqs
          cases hpc : orc.putReceiptCatch with
          | fail m2 =>
            simp only [bind_run, putReceiptR2, hpc] at h
            injection h with h1 h2
            subst h1
            subst h2
            refine ⟨?_, by intro eid msg hres; simp at hres⟩
            simp only [ht2, hev1, List.append_assoc, List.cons_append,
              List.singleton_append, List.nil_append]
            rw [hBt1]
            simp [projAfterCanonB, isCanonEv, isProjEv]
          | ok retC =>
            simp only [bind_run, putReceiptR2, hpc, pure_run] at h
            injection h with h1 h2
            subst h1
            subst h2
            refine ⟨?_, ?_⟩
            · simp only [ht2, hev1, List.append_assoc, List.cons_append,
                List.singleton_append, List.nil_append]
              rw [hBt1]
              simp [projAfterCanonB, isCanonEv, isProjEv]
            · intro eid msg hres
              injection hres with hres1
              injection hres1 with hs hbody hretry
              injection hbody with heid hmsg
              subst heid
              subst hmsg
              refine ⟨data, ra, rfl, rfl, ?_, ?_, ?_⟩
              · simp [alookup_aset_self, intakeReceiptPre]
              · simp only [ht2, hev1]
                simp [intakeReceiptPre]
              · intro k a hmem
                simp only [ht2, hev1, List.append_assoc, List.cons_append,
                  List.singleton_append, List.nil_append, List.mem_append,
                  List.mem_cons, List.mem_singleton] at hmem
                have hk : k =
                    "accounts/" ++
                      accountIdFromEmail
                        (normalizeIntakePayload data).normalized.primaryEmail ++
                      ".json" := by
                  rcases hmem with hmem | hmem | hmem | hmem | hmem | hmem
                  · exact absurd (hneu1 _ hmem).2 (by simp [isCanonEv])
                  · exact absurd hmem (by simp)
                  · injection hmem with hk2 ha2
                  · exact (hput2 k a hmem).1
                  · exact absurd hmem (by simp)
                  · exact absurd hmem (by simp)
                subst hk
                have hbase : alookup
                    (aset s1.store.accounts
                      ("accounts/" ++
                        accountIdFromEmail
                          (normalizeIntakePayload data).normalized.primaryEmail ++
                        ".json")
                      (intakeMergedAccount
                        (alookup s1.store.accounts
                          ("accounts/" ++
                            accountIdFromEmail
                              (normalizeIntakePayload data).normalized.primaryEmail ++
                            ".json"))
                        (normalizeIntakePayload data).normalized
                        (accountIdFromEmail
                          (normalizeIntakePayload data).normalized.primaryEmail)))
                    ("accounts/" ++
                      accountIdFromEmail
                        (normalizeIntakePayload data).normalized.primaryEmail ++
                      ".json") ≠ none := by
                  rw [alookup_aset_self]
                  simp
                exact hpres4 _ hbase
      next ee s4 heq2 =>
        injection heq with hqa hqs
        injection hqa with hqa2
        subst hqa2
        subst hqs
        cases hpc : orc.putReceiptCatch with
        | fail m2 =>
          simp only [bind_run, putReceiptR2, hpc] at h
          injection h with h1 h2
          subst h1
          subst h2
          refine ⟨?_, by intro eid msg hres; simp at hres⟩
          obtain ⟨⟨hrec4, hord4, hsup4, hthr4⟩, hpres4, t2, ht2, -, -, hput2⟩ :=
            ensure_effects _ _ _ _ _ _ _ heq2
          simp only [ht2, hev1, List.append_assoc, List.cons_append,
            List.singleton_append, List.nil_append]
          rw [hBt1]
          simp [projAfterCanonB, isCanonEv, isProjEv]
        | ok retC =>
          obtain ⟨⟨hrec4, hord4, hsup4, hthr4⟩, hpres4, t2, ht2, -, -, hput2⟩ :=
            ensure_effects _ _ _ _ _ _ _ heq2
          simp only [bind_run, putReceiptR2, hpc, pure_run] at h
          injection h with h1 h2
          subst h1
          subst h2
          refine ⟨?_, ?_⟩
          · simp only [ht2, hev1, List.append_assoc, List.cons_append,
              List.singleton_append, List.nil_append]
            rw [hBt1]
            simp [projAfterCanonB, isCanonEv, isProjEv]
          · intro eid msg hres
            injection hres with hres1
            injection hres1 with hs hbody hretry
            injection hbody with heid hmsg
            subst heid
            subst hmsg
            refine ⟨data, ra, rfl, rfl, ?_, ?_, ?_⟩
            · rw [hrec4]
              simp [alookup_aset_self, alookup_aset_ne, intakeReceiptPre]
            · simp only [ht2, hev1]
              simp [intakeReceiptPre]
            · intro k a hmem
              simp only [ht2, hev1, List.append_assoc, List.cons_append,
                List.singleton_append, List.nil_append, List.mem_append,
                List.mem_cons, List.mem_singleton] at hmem
              have hk : k =
                  "accounts/" ++
                    accountIdFromEmail
                      (normalizeIntakePayload data).normalized.primaryEmail ++
                    ".json" := by
                rcases hmem with hmem | hmem | hmem | hmem | hmem | hmem
                · exact absurd (hneu1 _ hmem).2 (by simp [isCanonEv])
                · exact absurd hmem (by simp)
                · injection hmem with hk2 ha2
                · exact (hput2 k a hmem).1
                · exact absurd hmem (by simp)
                · exact absurd hmem (by simp)
              subst hk
              have hbase : alookup
                  (aset s1.store.accounts
                    ("accounts/" ++
                      accountIdFromEmail
                        (normalizeIntakePayload data).normalized.primaryEmail ++
                      ".json")
                    (intakeMergedAccount
                      (alookup s1.store.accounts
                        ("accounts/" ++
                          accountIdFromEmail
                            (normalizeIntakePayload data).normalized.primaryEmail ++
                          ".json"))
                      (normalizeIntakePayload data).normalized
                      (accountIdFromEmail
                        (normalizeIntakePayload data).normalized.primaryEmail)))
                  ("accounts/" ++
                    accountIdFromEmail
                      (normalizeIntakePayload data).normalized.primaryEmail ++
                    ".json") ≠ none := by
                rw [alookup_aset_self]
                simp
              exact hpres4 _ hbase
  · rw [if_neg hg] at h
    simp only [bind_run, pure_run, putReceiptR2] at h
    cases hpd : orc.putReceiptDone with
    | ok retD =>
      simp only [hpd, pure_run] at h
      injection h with h1 h2
      subst h1
      subst h2
      refine ⟨?_, by intro eid msg hres; simp at hres⟩
      simp only [hev1, List.append_assoc, List.cons_append,
        List.singleton_append, List.nil_append]
      rw [hBt1]
      simp [projAfterCanonB, isCanonEv, isProjEv]
    | fail m =>
      simp only [hpd] at h
      cases hpc : orc.putReceiptCatch with
      | fail m2 =>
        simp only [bind_run, putReceiptR2, hpc] at h
        injection h with h1 h2
        subst h1
        subst h2
        refine ⟨?_, by intro eid msg hres; simp at hres⟩
        simp only [hev1, List.append_assoc, List.cons_append,
          List.singleton_append, List.nil_append]
        rw [hBt1]
        simp [projAfterCanonB, isCanonEv, isProjEv]
      | ok retC =>
        simp only [bind_run, putReceiptR2, hpc, pure_run] at h
        injection h with h1 h2
        subst h1
        subst h2
        refine ⟨?_, ?_⟩
        · simp only [hev1, List.append_assoc, List.cons_append,
            List.singleton_append, List.nil_append]
          rw [hBt1]
          simp [projAfterCanonB, isCanonEv, isProjEv]
        · intro eid msg hres
          injection hres with hres1
          injection hres1 with hs hbody hretry
          injection hbody with heid hmsg
          subst heid
          subst hmsg
          refine ⟨data, ra, rfl, rfl, ?_, ?_, ?_⟩
          · simp [alookup_aset_self, intakeReceiptPre]
          · simp [intakeReceiptPre]
          · intro k a hmem
            simp only [hev1, List.append_assoc, List.cons_append,
              List.singleton_append, List.nil_append, List.mem_append,
              List.mem_cons, List.mem_singleton] at hmem
            have hk : k =
                "accounts/" ++
                  accountIdFromEmail
                    (normalizeIntakePayload data).normalized.primaryEmail ++
                  ".json" := by
              rcases hmem with hmem | hmem | hmem | hmem | hmem
              · exact absurd (hneu1 _ hmem).2 (by simp [isCanonEv])
              · exact absurd hmem (by simp)
              · injection hmem with hk2 ha2
              · exact absurd hmem (by simp)
              · exact absurd hmem (by simp)
            subst hk
            simp [alookup_aset_self]

theorem evExtends_pure {α : Type} (a : α) : evExtends (pure a : M α) := by
  intro s r s1 h
  injection h with h1 h2
  subst h2
  exact ⟨[], by simp⟩

theorem evExtends_throwJs {α : Type} (msg : String) :
    evExtends (throwJs msg : M α) := by
  intro s r s1 h
  injection h with h1 h2
  subst h2
  exact ⟨[], by simp⟩

theorem evExtends_getStore : evExtends getStore := by
  intro s r s1 h
  injection h with h1 h2
  subst h2
  exact ⟨[], by simp⟩

theorem evExtends_bind {α β : Type} (m : M α) (f : α → M β)
    (hm : evExtends m) (hf : ∀ a, evExtends (f a)) : evExtends (m >>= f) := by
  intro s r s1 h
  rcases hx : m s with ⟨rx, sx⟩
  obtain ⟨t, ht⟩ := hm s rx sx hx
  rw [bind_run, hx] at h
  cases rx with
  | error e =>
    injection h with h1 h2
    subst h2
    exact ⟨t, ht⟩
  | ok a =>
    obtain ⟨t2, ht2⟩ := hf a sx r s1 h
    exact ⟨t ++ t2, by rw [ht2, ht, List.append_assoc]⟩

theorem evExtends_ite {α : Type} (c : Prop) [Decidable c] (m1 m2 : M α)
    (h1 : evExtends m1) (h2 : evExtends m2) : evExtends (if c then m1 else m2) := by
  by_cases hc : c
  · rw [if_pos hc]; exact h1
  · rw [if_neg hc]; exact h2

theorem evExtends_putReceiptR2 (o : Outcome) (k : String) (v : Receipt) :
    evExtends (putReceiptR2 o k v) := by
  intro s r s1 h
  cases o with
  | fail m =>
    simp only [putReceiptR2] at h
    injection h with h1 h2
    subst h2
    exact ⟨[], by simp⟩
  | ok ret =>
    simp only [putReceiptR2] at h
    injection h with h1 h2
    subst h2
    exact ⟨[Event.putReceipt k v], rfl⟩

theorem evExtends_putAccountR2 (o : Outcome) (k : String) (v : Account) :
    evExtends (putAccountR2 o k v) := by
  intro s r s1 h
  cases o with
  | fail m =>
    simp only [putAccountR2] at h
    injection h with h1 h2
    subst h2
    exact ⟨[], by simp⟩
  | ok ret =>
    simp only [putAccountR2] at h
    injection h with h1 h2
    subst h2
    exact ⟨[Event.putAccount k v], rfl⟩

theorem evExtends_putOrderR2 (o : Outcome) (k : String) (v : Order) :
    evExtends (putOrderR2 o k v) := by
  intro s r s1 h
  cases o with
  | fail m =>
    simp only [putOrderR2] at h
    injection h with h1 h2
    subst h2
    exact ⟨[], by simp⟩
  | ok ret =>
    simp only [putOrderR2] at h
    injection h with h1 h2
    subst h2
    exact ⟨[Event.putOrder k v], rfl⟩

theorem evExtends_putSupportR2 (o : Outcome) (k : String) (v : Support) :
    evExtends (putSupportR2 o k v) := by
  intro s r s1 h
  cases o with
  | fail m =>
    simp only [putSupportR2] at h
    injection h with h1 h2
    subst h2
    exact ⟨[], by simp⟩
  | ok ret =>
    simp only [putSupportR2] at h
    injection h with h1 h2
    subst h2
    exact ⟨[Event.putSupport k v], rfl⟩

theorem evExtends_cuRequest (o : Outcome) (ev : Event) :
    evExtends (cuRequest o ev) := by
  intro s r s1 h
  cases o with
  | fail m =>
    simp only [cuRequest] at h
    injection h with h1 h2
    subst h2
    exact ⟨[ev], rfl⟩
  | ok ret =>
    simp only [cuRequest] at h
    injection h with h1 h2
    subst h2
    exact ⟨[ev], rfl⟩

theorem evExtends_addClickUpComment (o : Outcome) (tid : Option String) :
    evExtends (addClickUpComment o tid) := by
  cases tid with
  | none => exact evExtends_pure ()
  | some t =>
    by_cases ht : t = ""
    · simp only [addClickUpComment, if_pos ht]
      exact evExtends_pure ()
    · simp only [addClickUpComment, if_neg ht]
      exact evExtends_bind _ _ (evExtends_cuRequest _ _) (fun _ => evExtends_pure ())

theorem evExtends_setClickUpTaskCustomField (o : Outcome) (tid : Option String)
    (fid : String) : evExtends (setClickUpTaskCustomField o tid fid) := by
  cases tid with
  | none => exact evExtends_pure ()
  | some t =>
    by_cases ht : t = ""
    · simp only [setClickUpTaskCustomField, if_pos ht]
      exact evExtends_pure ()
    · by_cases hf : fid = ""
      · simp only [setClickUpTaskCustomField, if_neg ht, if_pos hf]
        exact evExtends_pure ()
      · simp only [setClickUpTaskCustomField, if_neg ht, if_neg hf]
        exact evExtends_bind _ _ (evExtends_cuRequest _ _) (fun _ => evExtends_pure ())

theorem evExtends_createClickUpOrderTask (env : Env) (o : Outcome) :
    evExtends (createClickUpOrderTask env o) := by
  simp only [createClickUpOrderTask]
  by_cases hl : jsTruthy env.ordersListId
  · rw [if_neg (by simp [hl])]
    exact evExtends_bind _ _ (evExtends_cuRequest _ _) (fun ret => evExtends_pure _)
  · rw [if_pos (by simp [hl])]
    exact evExtends_throwJs _

theorem evExtends_createClickUpSupportTask (env : Env) (o : Outcome) :
    evExtends (createClickUpSupportTask env o) := by
  simp only [createClickUpSupportTask]
  by_cases hl : jsTruthy env.supportListId
  · rw [if_neg (by simp [hl])]
    exact evExtends_bind _ _ (evExtends_cuRequest _ _) (fun ret => evExtends_pure _)
  · rw [if_pos (by simp [hl])]
    exact evExtends_throwJs _

theorem evExtends_ensureClickUpAccountTask (env : Env) (orc : Oracle)
    (account : Account) (accountKey : String) :
    evExtends (ensureClickUpAccountTask env orc account accountKey) := by
  intro s r s1 h
  obtain ⟨-, -, t, ht, -, -, -⟩ := ensure_effects _ _ _ _ _ _ _ h
  exact ⟨t, ht⟩

theorem evExtends_orderAfterOrderWrite (env : Env) (orc : Oracle)
    (ea : Account) (aid ak oid eid ra : String) (rec : Receipt) (rk : String) :
    evExtends (orderAfterOrderWrite env orc ea aid ak oid eid ra rec rk) := by
  simp only [orderAfterOrderWrite]
  exact evExtends_bind _ _ (evExtends_putAccountR2 _ _ _) (fun _ =>
    evExtends_ite _ _ _
      (evExtends_bind _ _ (evExtends_ensureClickUpAccountTask _ _ _ _) (fun atid =>
        evExtends_ite _ _ _
          (evExtends_bind _ _ (evExtends_createClickUpOrderTask _ _) (fun otid =>
            evExtends_bind _ _ (evExtends_addClickUpComment _ _) (fun _ =>
              evExtends_bind _ _ (evExtends_setClickUpTaskCustomField _ _ _) (fun _ =>
                evExtends_bind _ _ (evExtends_pure _) (fun y =>
                  evExtends_bind _ _ (evExtends_putReceiptR2 _ _ _) (fun _ =>
                    evExtends_pure _))))))
          (evExtends_bind _ _ (evExtends_pure _) (fun y =>
            evExtends_bind _ _ (evExtends_putReceiptR2 _ _ _) (fun _ =>
              evExtends_pure _)))))
      (evExtends_bind _ _ (evExtends_pure _) (fun y =>
        evExtends_bind _ _ (evExtends_putReceiptR2 _ _ _) (fun _ =>
          evExtends_pure _))))

theorem evExtends_supportAfterSupportWrite (env : Env) (orc : Oracle)
    (ea : Account) (aid ak sid eid ra : String) (rec : Receipt) (rk : String) :
    evExtends (supportAfterSupportWrite env orc ea aid ak sid eid ra rec rk) := by
  simp only [supportAfterSupportWrite]
  exact evExtends_ite _ _ _
    (evExtends_bind _ _ (evExtends_ensureClickUpAccountTask _ _ _ _) (fun atid =>
      evExtends_ite _ _ _
        (evExtends_bind _ _ (evExtends_createClickUpSupportTask _ _) (fun stid =>
          evExtends_bind _ _ (evExtends_addClickUpComment _ _) (fun _ =>
            evExtends_bind _ _ (evExtends_setClickUpTaskCustomField _ _ _) (fun _ =>
              evExtends_bind _ _ (evExtends_pure _) (fun y =>
                evExtends_bind _ _ (evExtends_putReceiptR2 _ _ _) (fun _ =>
                  evExtends_pure _))))))
        (evExtends_bind _ _ (evExtends_pure _) (fun y =>
          evExtends_bind _ _ (evExtends_putReceiptR2 _ _ _) (fun _ =>
            evExtends_pure _)))))
    (evExtends_bind _ _ (evExtends_pure _) (fun y =>
      evExtends_bind _ _ (evExtends_putReceiptR2 _ _ _) (fun _ =>
        evExtends_pure _)))

/-- The trace of an order run from an empty trace never shows a projection
call before a canonical write: every ClickUp invocation is preceded by the
put of the canonical order document. -/
theorem order_run_B (env : Env) (orc : Oracle) (req : FormReq)
    (freshId nowIso : String) (nowMs : Int) (store : Store)
    (res : Except String Resp) (s' : S)
    (h : handleFormsOrder env orc req freshId nowIso nowMs ⟨store, []⟩ =
      (res, s')) :
    projAfterCanonB s'.events = true := by
  simp only [handleFormsOrder] at h
  by_cases hm : jsToUpper req.method = "POST"
  case neg =>
    rw [if_pos hm, pure_run] at h
    injection h with h1 h2
    subst h2
    simp [projAfterCanonB]
  case pos =>
  rw [if_neg (fun hc => hc hm)] at h
  cases hb : env.r2Bucket with
  | false =>
    simp only [hb, Bool.not_false, if_true, pure_run] at h
    injection h with h1 h2
    subst h2
    simp [projAfterCanonB]
  | true =>
  simp only [hb, Bool.not_true, Bool.false_eq_true, if_false] at h
  cases hp : req.parsed with
  | error ed =>
    simp only [hp, pure_run] at h
    injection h with h1 h2
    subst h2
    simp [projAfterCanonB]
  | ok pr =>
  obtain ⟨data, ra⟩ := pr
  simp only [hp, pure_run] at h
  by_cases hmiss : (normalizeOrderPayload data).missing = []
  case neg =>
    rw [if_pos hmiss, pure_run] at h
    injection h with h1 h2
    subst h2
    simp [projAfterCanonB]
  case pos =>
  rw [if_neg (fun hc => hc hmiss)] at h
  simp only [bind_run, getStore] at h
  by_cases hgate :
      (match alookup store.receipts
          ("receipts/form/" ++ eventIdFrom (alookup data "eventId") freshId ++
            ".json") with
        | some r => r.processed
        | none => false) = true
  case pos =>
    rw [if_pos hgate, pure_run] at h
    injection h with h1 h2
    subst h2
    simp [projAfterCanonB]
  case neg =>
  rw [if_neg hgate] at h
  rcases hthr : enforceEmailThrottle orc
      (normalizeOrderPayload data).normalized.primaryEmail nowMs nowIso 600 10
      "form:order" ⟨store, []⟩ with ⟨resT, s1⟩
  obtain ⟨-, t1, hev1, hneu1⟩ := enforce_effects _ _ _ _ _ _ _ _ _ _ hthr
  simp only [List.nil_append] at hev1
  have hBt1 : ∀ rest, projAfterCanonB (t1 ++ rest) = projAfterCanonB rest :=
    fun rest => projAfterCanonB_neutral_append t1 rest hneu1
  cases resT with
  | error m =>
    simp only [bind_run, hthr] at h
    injection h with h1 h2
    subst h2
    rw [hev1]
    simpa using hBt1 []
  | ok thr =>
  cases thr with
  | reject terr tretry =>
    simp only [bind_run, hthr, pure_run] at h
    injection h with h1 h2
    subst h2
    rw [hev1]
    simpa using hBt1 []
  | allow =>
  simp only [bind_run, hthr] at h
  cases hpr : orc.putReceiptPre with
  | fail m =>
    simp only [bind_run, putReceiptR2, hpr] at h
    injection h with h1 h2
    subst h2
    rw [hev1]
    simpa using hBt1 []
  | ok retP =>
  simp only [bind_run, putReceiptR2, hpr, tryCatchM_run, getStore] at h
  cases hacc : alookup s1.store.accounts
      ("accounts/" ++
        accountIdFromEmail (normalizeOrderPayload data).normalized.primaryEmail ++
        ".json") with
  | none =>
    simp only [hacc, throwJs] at h
    cases hpc : orc.putReceiptCatch with
    | fail m2 =>
      simp only [bind_run, putReceiptR2, hpc] at h
      injection h with h1 h2
      subst h2
      simp only [hev1]
      rw [hBt1]
      simp [projAfterCanonB, isCanonEv, isProjEv]
    | ok retC =>
      simp only [bind_run, putReceiptR2, hpc, pure_run] at h
      injection h with h1 h2
      subst h2
      simp only [hev1, List.append_assoc, List.cons_append,
        List.singleton_append, List.nil_append]
      rw [hBt1]
      simp [projAfterCanonB, isCanonEv, isProjEv]
  | some ea =>
    simp only [hacc] at h
    cases hpo : orc.putOrder with
    | fail m =>
      simp only [bind_run, putOrderR2, hpo] at h
      cases hpc : orc.putReceiptCatch with
      | fail m2 =>
        simp only [bind_run, putReceiptR2, hpc] at h
        injection h with h1 h2
        subst h2
        simp only [hev1]
        rw [hBt1]
        simp [projAfterCanonB, isCanonEv, isProjEv]
      | ok retC =>
        simp only [bind_run, putReceiptR2, hpc, pure_run] at h
        injection h with h1 h2
        subst h2
        simp only [hev1, List.append_assoc, List.cons_append,
          List.singleton_append, List.nil_append]
        rw [hBt1]
        simp [projAfterCanonB, isCanonEv, isProjEv]
    | ok retO =>
      simp only [bind_run, putOrderR2, hpo] at h
      split at h
      next xx aa sb heq =>
        injection h with h1 h2
        subst h2
        obtain ⟨t2, ht2⟩ :=
          evExtends_orderAfterOrderWrite _ _ _ _ _ _ _ _ _ _ _ _ _ heq
        simp only [ht2, hev1, List.append_assoc, List.cons_append,
          List.singleton_append, List.nil_append]
        rw [hBt1]
        simp [projAfterCanonB, isCanonEv, isProjEv]
      next xx ee sb heq =>
        obtain ⟨t2, ht2⟩ :=
          evExtends_orderAfterOrderWrite _ _ _ _ _ _ _ _ _ _ _ _ _ heq
        cases hpc : orc.putReceiptCatch with
        | fail m2 =>
          simp only [bind_run, putReceiptR2, hpc] at h
          injection h with h1 h2
          subst h2
          simp only [ht2, hev1, List.append_assoc, List.cons_append,
            List.singleton_append, List.nil_append]
          rw [hBt1]
          simp [projAfterCanonB, isCanonEv, isProjEv]
        | ok retC =>
          simp only [bind_run, putReceiptR2, hpc, pure_run] at h
          injection h with h1 h2
          subst h2
          simp only [ht2, hev1, List.append_assoc, List.cons_append,
            List.singleton_append, List.nil_append]
          rw [hBt1]
          simp [projAfterCanonB, isCanonEv, isProjEv]

/-- The trace of a support run from an empty trace never shows a projection
call before a canonical write: every ClickUp invocation is preceded by the
put of the canonical support document. -/
theorem support_run_B (env : Env) (orc : Oracle) (req : FormReq)
    (freshId nowIso : String) (nowMs : Int) (store : Store)
    (res : Except String Resp) (s' : S)
    (h : handleFormsSupport env orc req freshId nowIso nowMs ⟨store, []⟩ =
      (res, s')) :
    projAfterCanonB s'.events = true := by
  simp only [handleFormsSupport] at h
  by_cases hm : jsToUpper req.method = "POST"
  case neg =>
    rw [if_pos hm, pure_run] at h
    injection h with h1 h2
    subst h2
    simp [projAfterCanonB]
  case pos =>
  rw [if_neg (fun hc => hc hm)] at h
  cases hb : env.r2Bucket with
  | false =>
    simp only [hb, Bool.not_false, if_true, pure_run] at h
    injection h with h1 h2
    subst h2
    simp [projAfterCanonB]
  | true =>
  simp only [hb, Bool.not_true, Bool.false_eq_true, if_false] at h
  cases hp : req.parsed with
  | error ed =>
    simp only [hp, pure_run] at h
    injection h with h1 h2
    subst h2
    simp [projAfterCanonB]
  | ok pr =>
  obtain ⟨data, ra⟩ := pr
  simp only [hp, pure_run] at h
  by_cases hmiss : (normalizeSupportPayload data).missing = []
  case neg =>
    rw [if_pos hmiss, pure_run] at h
    injection h with h1 h2
    subst h2
    simp [projAfterCanonB]
  case pos =>
  rw [if_neg (fun hc => hc hmiss)] at h
  simp only [bind_run, getStore] at h
  by_cases hgate :
      (match alookup store.receipts
          ("receipts/form/" ++ eventIdFrom (alookup data "eventId") freshId ++
            ".json") with
        | some r => r.processed
        | none => false) = true
  case pos =>
    rw [if_pos hgate, pure_run] at h
    injection h with h1 h2
    subst h2
    simp [projAfterCanonB]
  case neg =>
  rw [if_neg hgate] at h
  rcases hthr : enforceEmailThrottle orc
      (normalizeSupportPayload data).normalized.primaryEmail nowMs nowIso 120 25
      "form:support" ⟨store, []⟩ with ⟨resT, s1⟩
  obtain ⟨-, t1, hev1, hneu1⟩ := enforce_effects _ _ _ _ _ _ _ _ _ _ hthr
  simp only [List.nil_append] at hev1
  have hBt1 : ∀ rest, projAfterCanonB (t1 ++ rest) = projAfterCanonB rest :=
    fun rest => projAfterCanonB_neutral_append t1 rest hneu1
  cases resT with
  | error m =>
    simp only [bind_run, hthr] at h
    injection h with h1 h2
    subst h2
    rw [hev1]
    simpa using hBt1 []
  | ok thr =>
  cases thr with
  | reject terr tretry =>
    simp only [bind_run, hthr, pure_run] at h
    injection h with h1 h2
    subst h2
    rw [hev1]
    simpa using hBt1 []
  | allow =>
  simp only [bind_run, hthr] at h
  cases hpr : orc.putReceiptPre with
  | fail m =>
    simp only [bind_run, putReceiptR2, hpr] at h
    injection h with h1 h2
    subst h2
    rw [hev1]
    simpa using hBt1 []
  | ok retP =>
  simp only [bind_run, putReceiptR2, hpr, tryCatchM_run, getStore] at h
  cases hacc : alookup s1.store.accounts
      ("accounts/" ++
        accountIdFromEmail (normalizeSupportPayload data).normalized.primaryEmail ++
        ".json") with
  | none =>
    simp only [hacc, throwJs] at h
    cases hpc : orc.putReceiptCatch with
    | fail m2 =>
      simp only [bind_run, putReceiptR2, hpc] at h
      injection h with h1 h2
      subst h2
      simp only [hev1]
      rw [hBt1]
      simp [projAfterCanonB, isCanonEv, isProjEv]
    | ok retC =>
      simp only [bind_run, putReceiptR2, hpc, pure_run] at h
      injection h with h1 h2
      subst h2
      simp only [hev1, List.append_assoc, List.cons_append,
        List.singleton_append, List.nil_append]
      rw [hBt1]
      simp [projAfterCanonB, isCanonEv, isProjEv]
  | some ea =>
    simp only [hacc] at h
    cases hpo : orc.putSupport with
    | fail m =>
      simp only [bind_run, putSupportR2, hpo] at h
      cases hpc : orc.putReceiptCatch with
      | fail m2 =>
        simp only [bind_run, putReceiptR2, hpc] at h
        injection h with h1 h2
        subst h2
        simp only [hev1]
        rw [hBt1]
        simp [projAfterCanonB, isCanonEv, isProjEv]
      | ok retC =>
        simp only [bind_run, putReceiptR2, hpc, pure_run] at h
        injection h with h1 h2
        subst h2
        simp only [hev1, List.append_assoc, List.cons_append,
          List.singleton_append, List.nil_append]
        rw [hBt1]
        simp [projAfterCanonB, isCanonEv, isProjEv]
    | ok retO =>
      simp only [bind_run, putSupportR2, hpo] at h
      split at h
      next xx aa sb heq =>
        injection h with h1 h2
        subst h2
        obtain ⟨t2, ht2⟩ :=
          evExtends_supportAfterSupportWrite _ _ _ _ _ _ _ _ _ _ _ _ _ heq
        simp only [ht2, hev1, List.append_assoc, List.cons_append,
          List.singleton_append, List.nil_append]
        rw [hBt1]
        simp [projAfterCanonB, isCanonEv, isProjEv]
      next xx ee sb heq =>
        obtain ⟨t2, ht2⟩ :=
          evExtends_supportAfterSupportWrite _ _ _ _ _ _ _ _ _ _ _ _ _ heq
        cases hpc : orc.putReceiptCatch with
        | fail m2 =>
          simp only [bind_run, putReceiptR2, hpc] at h
          injection h with h1 h2
          subst h2
          simp only [ht2, hev1, List.append_assoc, List.cons_append,
            List.singleton_append, List.nil_append]
          rw [hBt1]
          simp [projAfterCanonB, isCanonEv, isProjEv]
        | ok retC =>
          simp only [bind_run, putReceiptR2, hpc, pure_run] at h
          injection h with h1 h2
          subst h2
          simp only [ht2, hev1, List.append_assoc, List.cons_append,
            List.singleton_append, List.nil_append]
          rw [hBt1]
          simp [projAfterCanonB, isCanonEv, isProjEv]

/-- **C5.** Canonical-write-before-projection ordering, for every form
handler: in any run of `handleFormsIntake`, `handleFormsOrder` or
`handleFormsSupport` started on an empty trace, the recorded effect trace
never shows a ClickUp projection call before a canonical-store write — the
projection is invoked only after the canonical R2 put for the event has
succeeded. -/
theorem projection_only_after_canonical_write (env : Env) (orc : Oracle)
    (req : FormReq) (freshId nowIso : String) (nowMs : Int) (store : Store)
    (resI resO resS : Except String Resp) (sI sO sS : S)
    (hI : handleFormsIntake env orc req freshId nowIso nowMs ⟨store, []⟩ =
      (resI, sI))
    (hO : handleFormsOrder env orc req freshId nowIso nowMs ⟨store, []⟩ =
      (resO, sO))
    (hS : handleFormsSupport env orc req freshId nowIso nowMs ⟨store, []⟩ =
      (resS, sS)) :
    projAfterCanon sI.events ∧ projAfterCanon sO.events ∧
      projAfterCanon sS.events :=
  ⟨projAfterCanon_of_B _
      (intake_run_spec env orc req freshId nowIso nowMs store resI sI hI).1,
   projAfterCanon_of_B _
      (order_run_B env orc req freshId nowIso nowMs store resO sO hO),
   projAfterCanon_of_B _
      (support_run_B env orc req freshId nowIso nowMs store resS sS hS)⟩

theorem projection_only_after_canonical_write_witness :
    projAfterCanon ((handleFormsIntake wEnv (Oracle.allOk (some "T-1")) wReq
        wUuid "t0" 0 ⟨Store.empty, []⟩).2).events ∧
    projAfterCanon ((handleFormsOrder wEnv (Oracle.allOk (some "T-1")) wReq
        wUuid "t0" 0 ⟨Store.empty, []⟩).2).events ∧
    projAfterCanon ((handleFormsSupport wEnv (Oracle.allOk (some "T-1")) wReq
        wUuid "t0" 0 ⟨Store.empty, []⟩).2).events :=
  projection_only_after_canonical_write wEnv (Oracle.allOk (some "T-1")) wReq
    wUuid "t0" 0 Store.empty _ _ _ _ _ _ rfl rfl rfl

/-- **C4.** Receipt durability: if the intake run answers 500 `intakeFailed`
(a pipeline step threw after validation), then a receipt keyed
`receipts/form/{eventId}.json` had already been written before the failing
step — its pre-write event, carrying the verbatim raw payload and
`processed = false`, is in the trace — and the receipt now stored at that
key has `processed = false`, `processingError` set to the thrown message,
and the `rawPayload` of the pre-written receipt, unaltered. -/
theorem receipt_prewrite_survives_failure (env : Env) (orc : Oracle)
    (req : FormReq) (freshId nowIso : String) (nowMs : Int) (store : Store)
    (eid msg : String) (s' : S)
    (h : handleFormsIntake env orc req freshId nowIso nowMs ⟨store, []⟩ =
      (Except.ok ⟨500, RespBody.intakeFailed eid msg, none⟩, s')) :
    ∃ data ra, req.parsed = Except.ok (data, ra) ∧
      eid = eventIdFrom (alookup data "eventId") freshId ∧
      Event.putReceipt ("receipts/form/" ++ eid ++ ".json")
        (intakeReceiptPre data eid nowIso) ∈ s'.events ∧
      ∃ rec, alookup s'.store.receipts ("receipts/form/" ++ eid ++ ".json") =
          some rec ∧
        rec.processed = false ∧
        rec.processingError = some msg ∧
        rec.rawPayload = (intakeReceiptPre data eid nowIso).rawPayload := by
  obtain ⟨-, h2⟩ := intake_run_spec env orc req freshId nowIso nowMs store _ s' h
  obtain ⟨data, ra, hp, heid, hrec, hmem, -⟩ := h2 eid msg rfl
  exact ⟨data, ra, hp, heid, hmem, _, hrec, rfl, rfl, rfl⟩

theorem receipt_prewrite_survives_failure_witness :
    ∃ data ra, wReq.parsed = Except.ok (data, ra) ∧
      wUuid = eventIdFrom (alookup data "eventId") wUuid ∧
      Event.putReceipt ("receipts/form/" ++ wUuid ++ ".json")
        (intakeReceiptPre data wUuid "t0") ∈
        ((handleFormsIntake wEnv wOrcAccFail wReq wUuid "t0" 0
          ⟨Store.empty, []⟩).2).events ∧
      ∃ rec, alookup ((handleFormsIntake wEnv wOrcAccFail wReq wUuid "t0" 0
            ⟨Store.empty, []⟩).2).store.receipts
          ("receipts/form/" ++ wUuid ++ ".json") = some rec ∧
        rec.processed = false ∧
        rec.processingError = some "R2 put failed" ∧
        rec.rawPayload = (intakeReceiptPre data wUuid "t0").rawPayload :=
  receipt_prewrite_survives_failure wEnv wOrcAccFail wReq wUuid "t0" 0
    Store.empty wUuid "R2 put failed" _ rfl


/-- Pinned account-missing path of the order handler: POST, R2 bound, body
parsed, validation passed, no prior receipt, throttle allowing (into state
`s1`), pre- and catch-receipt writes succeeding, and no account document at
the resolved key. The run answers 500 `orderFailed` with the "Account not
found" message, leaves the canonical order/account/support maps exactly as
they were, stores the pre-written receipt with `processed = false` and that
message as `processingError`, and traces no canonical write and no
projection call. -/
theorem order_account_missing (env : Env) (orc : Oracle) (req : FormReq)
    (data : List (String × JsVal)) (ra freshId nowIso : String) (nowMs : Int)
    (store : Store) (s1 : S) (rp rc : Option String)
    (res : Except String Resp) (s' : S)
    (hm : jsToUpper req.method = "POST")
    (hb : env.r2Bucket = true)
    (hp : req.parsed = Except.ok (data, ra))
    (hmiss : (normalizeOrderPayload data).missing = [])
    (hgate : alookup store.receipts
      ("receipts/form/" ++ eventIdFrom (alookup data "eventId") freshId ++
        ".json") = none)
    (henf : enforceEmailThrottle orc
      (normalizeOrderPayload data).normalized.primaryEmail nowMs nowIso 600 10
      "form:order" ⟨store, []⟩ = (Except.ok ThrottleRes.allow, s1))
    (hpr : orc.putReceiptPre = Outcome.ok rp)
    (hpc : orc.putReceiptCatch = Outcome.ok rc)
    (hacc : alookup store.accounts
      ("accounts/" ++
        accountIdFromEmail
          (normalizeOrderPayload data).normalized.primaryEmail ++
        ".json") = none)
    (h : handleFormsOrder env orc req freshId nowIso nowMs ⟨store, []⟩ =
      (res, s')) :
    res = Except.ok ⟨500,
        RespBody.orderFailed (eventIdFrom (alookup data "eventId") freshId)
          "Account not found for email. Submit intake first or create account before order.",
        none⟩ ∧
    s'.store.orders = store.orders ∧
    s'.store.accounts = store.accounts ∧
    s'.store.support = store.support ∧
    alookup s'.store.receipts
        ("receipts/form/" ++ eventIdFrom (alookup data "eventId") freshId ++
          ".json") =
      some { orderReceiptPre data
               (eventIdFrom (alookup data "eventId") freshId) nowIso with
               processed := false,
               processingError := some
                 "Account not found for email. Submit intake first or create account before order." } ∧
    ∀ e ∈ s'.events, isProjEv e = false ∧ isCanonEv e = false := by
  obtain ⟨⟨hfr1, hfr2, hfr3, hfr4⟩, t1, hev1, hneu1⟩ :=
    enforce_effects _ _ _ _ _ _ _ _ _ _ henf
  simp only [List.nil_append] at hev1
  simp only [handleFormsOrder] at h
  rw [if_neg (fun hc => hc hm)] at h
  simp only [hb, Bool.not_true, Bool.false_eq_true, if_false] at h
  simp only [hp, pure_run] at h
  rw [if_neg (fun hc => hc hmiss)] at h
  simp only [bind_run, getStore, hgate, Bool.false_eq_true, if_false] at h
  simp only [bind_run, henf] at h
  simp only [bind_run, putReceiptR2, hpr, tryCatchM_run, getStore] at h
  simp only [hfr2, hacc, throwJs] at h
  simp only [bind_run, putReceiptR2, hpc, pure_run] at h
  injection h with h1 h2
  subst h1
  subst h2
  refine ⟨rfl, by simpa using hfr3, by simp, by simpa using hfr4, ?_, ?_⟩
  · simp [alookup_aset_self, orderReceiptPre]
  · intro e he
    simp only [hev1, List.append_assoc, List.cons_append,
      List.singleton_append, List.nil_append, List.mem_append,
      List.mem_cons, List.mem_singleton] at he
    rcases he with he | he | he
    · exact hneu1 e he
    · subst he
      exact ⟨rfl, rfl⟩
    · rcases he with he | he
      · subst he
        exact ⟨rfl, rfl⟩
      · exact absurd he (by simp)

/-- Pinned account-missing path of the support handler: POST, R2 bound, body
parsed, validation passed, no prior receipt, throttle allowing (into state
`s1`), pre- and catch-receipt writes succeeding, and no account document at
the resolved key. The run answers 500 `supportFailed` with the "Account not
found" message, leaves the canonical order/account/support maps exactly as
they were, stores the pre-written receipt with `processed = false` and that
message as `processingError`, and traces no canonical write and no
projection call. -/
theorem support_account_missing (env : Env) (orc : Oracle) (req : FormReq)
    (data : List (String × JsVal)) (ra freshId nowIso : String) (nowMs : Int)
    (store : Store) (s1 : S) (rp rc : Option String)
    (res : Except String Resp) (s' : S)
    (hm : jsToUpper req.method = "POST")
    (hb : env.r2Bucket = true)
    (hp : req.parsed = Except.ok (data, ra))
    (hmiss : (normalizeSupportPayload data).missing = [])
    (hgate : alookup store.receipts
      ("receipts/form/" ++ eventIdFrom (alookup data "eventId") freshId ++
        ".json") = none)
    (henf : enforceEmailThrottle orc
      (normalizeSupportPayload data).normalized.primaryEmail nowMs nowIso 120 25
      "form:support" ⟨store, []⟩ = (Except.ok ThrottleRes.allow, s1))
    (hpr : orc.putReceiptPre = Outcome.ok rp)
    (hpc : orc.putReceiptCatch = Outcome.ok rc)
    (hacc : alookup store.accounts
      ("accounts/" ++
        accountIdFromEmail
          (normalizeSupportPayload data).normalized.primaryEmail ++
        ".json") = none)
    (h : handleFormsSupport env orc req freshId nowIso nowMs ⟨store, []⟩ =
      (res, s')) :
    res = Except.ok ⟨500,
        RespBody.supportFailed (eventIdFrom (alookup data "eventId") freshId)
          "Account not found for email. Submit intake first or create account before support.",
        none⟩ ∧
    s'.store.orders = store.orders ∧
    s'.store.accounts = store.accounts ∧
    s'.store.support = store.support ∧
    alookup s'.store.receipts
        ("receipts/form/" ++ eventIdFrom (alookup data "eventId") freshId ++
          ".json") =
      some { supportReceiptPre data
               (eventIdFrom (alookup data "eventId") freshId) nowIso with
               processed := false,
               processingError := some
                 "Account not found for email. Submit intake first or create account before support." } ∧
    ∀ e ∈ s'.events, isProjEv e = false ∧ isCanonEv e = false := by
  obtain ⟨⟨hfr1, hfr2, hfr3, hfr4⟩, t1, hev1, hneu1⟩ :=
    enforce_effects _ _ _ _ _ _ _ _ _ _ henf
  simp only [List.nil_append] at hev1
  simp only [handleFormsSupport] at h
  rw [if_neg (fun hc => hc hm)] at h
  simp only [hb, Bool.not_true, Bool.false_eq_true, if_false] at h
  simp only [hp, pure_run] at h
  rw [if_neg (fun hc => hc hmiss)] at h
  simp only [bind_run, getStore, hgate, Bool.false_eq_true, if_false] at h
  simp only [bind_run, henf] at h
  simp only [bind_run, putReceiptR2, hpr, tryCatchM_run, getStore] at h
  simp only [hfr2, hacc, throwJs] at h
  simp only [bind_run, putReceiptR2, hpc, pure_run] at h
  injection h with h1 h2
  subst h1
  subst h2
  refine ⟨rfl, by simpa using hfr3, by simp, by simpa using hfr4, ?_, ?_⟩
  · simp [alookup_aset_self, supportReceiptPre]
  · intro e he
    simp only [hev1, List.append_assoc, List.cons_append,
      List.singleton_append, List.nil_append, List.mem_append,
      List.mem_cons, List.mem_singleton] at he
    rcases he with he | he | he
    · exact hneu1 e he
    · subst he
      exact ⟨rfl, rfl⟩
    · rcases he with he | he
      · subst he
        exact ⟨rfl, rfl⟩
      · exact absurd he (by simp)

/-- **C10.** Order and support submissions require an existing account; only
intake creates one. For runs of the order and the support handler pinned to
the account-missing path (POST, R2 bound, body parsed and valid, no prior
receipt, throttle allowing, receipt pre and catch writes succeeding, and no
`accounts/{accountId}.json` for the email's resolved account id), no order
or support canonical document is written and no account is created — the
order/account/support maps are exactly the input ones — the response is 500
`orderFailed` / `supportFailed` carrying the "Account not found … Submit
intake first" message, the pre-written receipt is left with
`processed = false` and that message as `processingError`, and the trace
holds no canonical write and no projection call. -/
theorem order_support_require_existing_account (env : Env) (orc : Oracle)
    (reqO reqS : FormReq) (dataO dataS : List (String × JsVal))
    (raO raS freshId nowIso : String) (nowMs : Int) (store : Store)
    (s1O s1S : S) (rp rc : Option String)
    (resO resS : Except String Resp) (sO sS : S)
    (hmO : jsToUpper reqO.method = "POST")
    (hmS : jsToUpper reqS.method = "POST")
    (hb : env.r2Bucket = true)
    (hpO : reqO.parsed = Except.ok (dataO, raO))
    (hpS : reqS.parsed = Except.ok (dataS, raS))
    (hmissO : (normalizeOrderPayload dataO).missing = [])
    (hmissS : (normalizeSupportPayload dataS).missing = [])
    (hgateO : alookup store.receipts
      ("receipts/form/" ++ eventIdFrom (alookup dataO "eventId") freshId ++
        ".json") = none)
    (hgateS : alookup store.receipts
      ("receipts/form/" ++ eventIdFrom (alookup dataS "eventId") freshId ++
        ".json") = none)
    (henfO : enforceEmailThrottle orc
      (normalizeOrderPayload dataO).normalized.primaryEmail nowMs nowIso 600 10
      "form:order" ⟨store, []⟩ = (Except.ok ThrottleRes.allow, s1O))
    (henfS : enforceEmailThrottle orc
      (normalizeSupportPayload dataS).normalized.primaryEmail nowMs nowIso 120 25
      "form:support" ⟨store, []⟩ = (Except.ok ThrottleRes.allow, s1S))
    (hpr : orc.putReceiptPre = Outcome.ok rp)
    (hpc : orc.putReceiptCatch = Outcome.ok rc)
    (haccO : alookup store.accounts
      ("accounts/" ++
        accountIdFromEmail
          (normalizeOrderPayload dataO).normalized.primaryEmail ++
        ".json") = none)
    (haccS : alookup store.accounts
      ("accounts/" ++
        accountIdFromEmail
          (normalizeSupportPayload dataS).normalized.primaryEmail ++
        ".json") = none)
    (hO : handleFormsOrder env orc reqO freshId nowIso nowMs ⟨store, []⟩ =
      (resO, sO))
    (hS : handleFormsSupport env orc reqS freshId nowIso nowMs ⟨store, []⟩ =
      (resS, sS)) :
    (resO = Except.ok ⟨500,
        RespBody.orderFailed (eventIdFrom (alookup dataO "eventId") freshId)
          "Account not found for email. Submit intake first or create account before order.",
        none⟩ ∧
      sO.store.orders = store.orders ∧
      sO.store.accounts = store.accounts ∧
      sO.store.support = store.support ∧
      alookup sO.store.receipts
          ("receipts/form/" ++ eventIdFrom (alookup dataO "eventId") freshId ++
            ".json") =
        some { orderReceiptPre dataO
                 (eventIdFrom (alookup dataO "eventId") freshId) nowIso with
                 processed := false,
                 processingError := some
                   "Account not found for email. Submit intake first or create account before order." } ∧
      ∀ e ∈ sO.events, isProjEv e = false ∧ isCanonEv e = false) ∧
    (resS = Except.ok ⟨500,
        RespBody.supportFailed (eventIdFrom (alookup dataS "eventId") freshId)
          "Account not found for email. Submit intake first or create account before support.",
        none⟩ ∧
      sS.store.orders = store.orders ∧
      sS.store.accounts = store.accounts ∧
      sS.store.support = store.support ∧
      alookup sS.store.receipts
          ("receipts/form/" ++ eventIdFrom (alookup dataS "eventId") freshId ++
            ".json") =
        some { supportReceiptPre dataS
                 (eventIdFrom (alookup dataS "eventId") freshId) nowIso with
                 processed := false,
                 processingError := some
                   "Account not found for email. Submit intake first or create account before support." } ∧
      ∀ e ∈ sS.events, isProjEv e = false ∧ isCanonEv e = false) :=
  ⟨order_account_missing env orc reqO dataO raO freshId nowIso nowMs store s1O
      rp rc resO sO hmO hb hpO hmissO hgateO henfO hpr hpc haccO hO,
   support_account_missing env orc reqS dataS raS freshId nowIso nowMs store s1S
      rp rc resS sS hmS hb hpS hmissS hgateS henfS hpr hpc haccS hS⟩

theorem order_support_require_existing_account_witness :
    ((handleFormsOrder wEnv (Oracle.allOk (some "T-1")) wReq wUuid "t0" 0
        ⟨Store.empty, []⟩).1 = Except.ok ⟨500,
        RespBody.orderFailed (eventIdFrom (alookup wData "eventId") wUuid)
          "Account not found for email. Submit intake first or create account before order.",
        none⟩ ∧
      ((handleFormsOrder wEnv (Oracle.allOk (some "T-1")) wReq wUuid "t0" 0
        ⟨Store.empty, []⟩).2).store.orders = Store.empty.orders ∧
      ((handleFormsOrder wEnv (Oracle.allOk (some "T-1")) wReq wUuid "t0" 0
        ⟨Store.empty, []⟩).2).store.accounts = Store.empty.accounts ∧
      ((handleFormsOrder wEnv (Oracle.allOk (some "T-1")) wReq wUuid "t0" 0
        ⟨Store.empty, []⟩).2).store.support = Store.empty.support ∧
      alookup ((handleFormsOrder wEnv (Oracle.allOk (some "T-1")) wReq wUuid
            "t0" 0 ⟨Store.empty, []⟩).2).store.receipts
          ("receipts/form/" ++ eventIdFrom (alookup wData "eventId") wUuid ++
            ".json") =
        some { orderReceiptPre wData
                 (eventIdFrom (alookup wData "eventId") wUuid) "t0" with
                 processed := false,
                 processingError := some
                   "Account not found for email. Submit intake first or create account before order." } ∧
      ∀ e ∈ ((handleFormsOrder wEnv (Oracle.allOk (some "T-1")) wReq wUuid
          "t0" 0 ⟨Store.empty, []⟩).2).events,
        isProjEv e = false ∧ isCanonEv e = false) ∧
    ((handleFormsSupport wEnv (Oracle.allOk (some "T-1")) wSupportReq wUuid
        "t0" 0 ⟨Store.empty, []⟩).1 = Except.ok ⟨500,
        RespBody.supportFailed (eventIdFrom (alookup wSupportData "eventId") wUuid)
          "Account not found for email. Submit intake first or create account before support.",
        none⟩ ∧
      ((handleFormsSupport wEnv (Oracle.allOk (some "T-1")) wSupportReq wUuid
        "t0" 0 ⟨Store.empty, []⟩).2).store.orders = Store.empty.orders ∧
      ((handleFormsSupport wEnv (Oracle.allOk (some "T-1")) wSupportReq wUuid
        "t0" 0 ⟨Store.empty, []⟩).2).store.accounts = Store.empty.accounts ∧
      ((handleFormsSupport wEnv (Oracle.allOk (some "T-1")) wSupportReq wUuid
        "t0" 0 ⟨Store.empty, []⟩).2).store.support = Store.empty.support ∧
      alookup ((handleFormsSupport wEnv (Oracle.allOk (some "T-1")) wSupportReq
            wUuid "t0" 0 ⟨Store.empty, []⟩).2).store.receipts
          ("receipts/form/" ++
            eventIdFrom (alookup wSupportData "eventId") wUuid ++ ".json") =
        some { supportReceiptPre wSupportData
                 (eventIdFrom (alookup wSupportData "eventId") wUuid) "t0" with
                 processed := false,
                 processingError := some
                   "Account not found for email. Submit intake first or create account before support." } ∧
      ∀ e ∈ ((handleFormsSupport wEnv (Oracle.allOk (some "T-1")) wSupportReq
          wUuid "t0" 0 ⟨Store.empty, []⟩).2).events,
        isProjEv e = false ∧ isCanonEv e = false) :=
  order_support_require_existing_account wEnv (Oracle.allOk (some "T-1"))
    wReq wSupportReq wData wSupportData "form" "form" wUuid "t0" 0 Store.empty
    ((enforceEmailThrottle (Oracle.allOk (some "T-1"))
      (normalizeOrderPayload wData).normalized.primaryEmail 0 "t0" 600 10
      "form:order" ⟨Store.empty, []⟩).2)
    ((enforceEmailThrottle (Oracle.allOk (some "T-1"))
      (normalizeSupportPayload wSupportData).normalized.primaryEmail 0 "t0" 120
      25 "form:support" ⟨Store.empty, []⟩).2)
    (some "T-1") (some "T-1")
    ((handleFormsOrder wEnv (Oracle.allOk (some "T-1")) wReq wUuid "t0" 0
      ⟨Store.empty, []⟩).1)
    ((handleFormsSupport wEnv (Oracle.allOk (some "T-1")) wSupportReq wUuid
      "t0" 0 ⟨Store.empty, []⟩).1)
    ((handleFormsOrder wEnv (Oracle.allOk (some "T-1")) wReq wUuid "t0" 0
      ⟨Store.empty, []⟩).2)
    ((handleFormsSupport wEnv (Oracle.allOk (some "T-1")) wSupportReq wUuid
      "t0" 0 ⟨Store.empty, []⟩).2)
    rfl rfl rfl rfl rfl rfl rfl rfl rfl rfl rfl rfl rfl rfl rfl rfl rfl

end TaxMonitor
